import Mathlib

/-!
# TagUnion (taglib/tagunion.cpp)

A shallow embedding of `TagLib::TagUnion<COUNT>`: a fixed array of `COUNT`
owning tag pointers, merged reads that scan the array in index order,
broadcasting writes, and slot access.

Conventions of the embedding

* A `Tag *` is a `TagPtr τ := Option τ`: `none` is the null pointer, `some t`
  points to a tag whose current state is `t`.  Slots are owning pointers
  (`SCOPED_PTR`); in the reads and writes a tag is identified with its state.
* `unsigned int` values are natural numbers; the code only compares them with
  `0` and passes them on, so no arithmetic can wrap.
* A `void` method that calls into the slots returns the union after the call
  together with the list of calls it made, each recorded as
  `(slot index, call)` in the order in which they happen.
* An array access `d->tags[index]` with `index >= COUNT` has no defined
  behaviour in C++; slot access therefore returns an `Option`, and `none`
  stands for "no defined result".  `Outcome` names the three ways such a call
  can end: it returns, it stops at a check of its precondition, or it has no
  defined behaviour.
* The destruction of tags is recorded as the list of tags destroyed.  The smart
  pointer `SCOPED_PTR` is declared in tsmartptr.h, outside the sources; its
  `reset` and its destructor follow the specification.  For ownership the
  elements of `τ` are read as the tag objects themselves (`TagObject` names an
  object by its address): equal elements are one object, so an element that
  occurs twice in the list of destroyed tags is an object released twice.
-/

namespace TagLib

/-! ## Collaborator types -/

/-- Modelled from the spec: `TagLib::StringList` (tstringlist.h is not among the
sources), a list of strings. -/
abbrev StringList := List String

/-- Modelled from the spec: `TagLib::PropertyMap` (tpropertymap.h is not among
the sources), "an opaque key/value collection": property names with their
values.  `PropertyMap()` is the empty collection `[]`. -/
abbrev PropertyMap := List (String × StringList)

/-- Modelled from the spec: `TagLib::PictureMap` (tpicturemap.h is not among the
sources), a collection of pictures grouped by picture type; a picture is
represented by its data.  `PictureMap()` is the empty collection `[]` and
`isEmpty()` is `List.isEmpty`. -/
abbrev PictureMap := List (Nat × List String)

/-- Modelled from the spec: the `Tag` capability interface (tag.h is not among
the sources): text fields, non-negative integer fields, a picture collection, a
property mapping, an emptiness check, setters and the unsupported-property
filter.  The methods are virtual, so nothing is assumed about them; a mutating
method maps the state of the tag before the call to its state after it. -/
class Tag (τ : Type) where
  title : τ → String
  artist : τ → String
  album : τ → String
  comment : τ → String
  genre : τ → String
  year : τ → Nat
  track : τ → Nat
  trackTotal : τ → Nat
  trackTot : τ → String
  pictures : τ → PictureMap
  properties : τ → PropertyMap
  isEmpty : τ → Bool
  setTitle : τ → String → τ
  setArtist : τ → String → τ
  setAlbum : τ → String → τ
  setComment : τ → String → τ
  setGenre : τ → String → τ
  setYear : τ → Nat → τ
  setTrack : τ → Nat → τ
  setPictures : τ → PictureMap → τ
  removeUnsupportedProperties : τ → StringList → τ

/-- A `Tag *`: the null pointer (`none`) or a pointer to a tag (`some t`). -/
abbrev TagPtr (τ : Type) := Option τ

/-- A call that the union makes on the tag of a slot: the method and its
argument. -/
inductive Call where
  | setTitle (s : String)
  | setArtist (s : String)
  | setAlbum (s : String)
  | setComment (s : String)
  | setGenre (s : String)
  | setYear (i : Nat)
  | setTrack (i : Nat)
  | setPictures (l : PictureMap)
  | removeUnsupportedProperties (unsupported : StringList)
deriving DecidableEq, Repr

/-- The effect of a call on the tag that receives it: `t->set##method(value)`. -/
def Tag.invoke {τ : Type} [Tag τ] (t : τ) : Call → τ
  | .setTitle s => Tag.setTitle t s
  | .setArtist s => Tag.setArtist t s
  | .setAlbum s => Tag.setAlbum t s
  | .setComment s => Tag.setComment t s
  | .setGenre s => Tag.setGenre t s
  | .setYear i => Tag.setYear t i
  | .setTrack i => Tag.setTrack t i
  | .setPictures l => Tag.setPictures t l
  | .removeUnsupportedProperties unsupported => Tag.removeUnsupportedProperties t unsupported

/-! ## The scanning loops (tagunion.cpp, lines 32-60)

Each loop `for(size_t j = 0; j < COUNT; ++j)` over `d->tags` is a recursion on
the slots that are still to be visited, `d->tags[j], ..., d->tags[COUNT-1]`. -/

section Loops

variable {τ : Type}

/-- The loop `stringUnion(method)`, lines 32-38:
`val = d->tags[j] ? d->tags[j]->method() : String(); if(!val.isEmpty()) return val;`
and `return String();` after the last slot. -/
def stringUnion (method : τ → String) : List (TagPtr τ) → String
  | [] => ""
  | p :: rest =>
    let val : String := match p with
      | some t => method t
      | none => ""
    if !val.isEmpty then val else stringUnion method rest

/-- The loop `numberUnion(method)`, lines 40-46:
`val = d->tags[j] ? d->tags[j]->method() : 0; if(val > 0) return val;`
and `return 0;` after the last slot. -/
def numberUnion (method : τ → Nat) : List (TagPtr τ) → Nat
  | [] => 0
  | p :: rest =>
    let val : Nat := match p with
      | some t => method t
      | none => 0
    if val > 0 then val else numberUnion method rest

/-- The loop `pictureMapUnion(method)`, lines 48-54:
`val = d->tags[j] ? d->tags[j]->method() : PictureMap(); if(!val.isEmpty()) return val;`
and `return PictureMap();` after the last slot. -/
def pictureMapUnion (method : τ → PictureMap) : List (TagPtr τ) → PictureMap
  | [] => []
  | p :: rest =>
    let val : PictureMap := match p with
      | some t => method t
      | none => []
    if !val.isEmpty then val else pictureMapUnion method rest

/-- The loop `setUnion(method, value)`, lines 56-60, started at slot `j`:
`if(d->tags[j]) d->tags[j]->set##method(value);`.  The result is the slots after
the loop and the calls made, in order. -/
def setUnion [Tag τ] (call : Call) : Nat → List (TagPtr τ) → List (TagPtr τ) × List (Nat × Call)
  | _, [] => ([], [])
  | j, p :: rest =>
    let r := setUnion call (j + 1) rest
    match p with
    | some t => (some (Tag.invoke t call) :: r.1, (j, call) :: r.2)
    | none => (none :: r.1, r.2)

/-- Whether slot `k` of the array holds a tag (`d->tags[k]` is in range and not
null). -/
def holdsTag (tags : List (TagPtr τ)) (k : Nat) : Bool :=
  match tags[k]? with
  | some (some _) => true
  | _ => false

/-- The loop of `TagUnion::properties`, lines 104-109:
`if(d->tags[i] && !d->tags[i]->isEmpty()) return d->tags[i]->properties();`
and `return PropertyMap();` after the last slot. -/
def propertiesLoop [Tag τ] : List (TagPtr τ) → PropertyMap
  | [] => []
  | p :: rest =>
    match p with
    | some t => if !Tag.isEmpty t then Tag.properties t else propertiesLoop rest
    | none => propertiesLoop rest

/-- The loop of `TagUnion::removeUnsupportedProperties`, lines 115-118, started
at slot `i`:
`if(d->tags[i]) d->tags[i]->removeUnsupportedProperties(unsupported);`.  The
result is the slots after the loop and the calls made, in order. -/
def removeUnsupportedPropertiesLoop [Tag τ] (unsupported : StringList) :
    Nat → List (TagPtr τ) → List (TagPtr τ) × List (Nat × Call)
  | _, [] => ([], [])
  | i, p :: rest =>
    let r := removeUnsupportedPropertiesLoop unsupported (i + 1) rest
    match p with
    | some t =>
      (some (Tag.removeUnsupportedProperties t unsupported) :: r.1,
        (i, Call.removeUnsupportedProperties unsupported) :: r.2)
    | none => (none :: r.1, r.2)

/-- The loop of `TagUnion::isEmpty`, lines 232-237:
`if(d->tags[i] && !d->tags[i]->isEmpty()) return false;` and `return true;`
after the last slot. -/
def isEmptyLoop [Tag τ] : List (TagPtr τ) → Bool
  | [] => true
  | p :: rest =>
    match p with
    | some t => if !Tag.isEmpty t then false else isEmptyLoop rest
    | none => isEmptyLoop rest

/-- The loop `setUnion` keeps the number of slots. -/
theorem setUnion_length [Tag τ] (call : Call) (tags : List (TagPtr τ)) (j : Nat) :
    (setUnion call j tags).1.length = tags.length := by
  induction tags generalizing j with
  | nil => rfl
  | cons p rest ih =>
    cases p <;> simp [setUnion, ih]

/-- The loop of `removeUnsupportedProperties` keeps the number of slots. -/
theorem removeUnsupportedPropertiesLoop_length [Tag τ] (unsupported : StringList)
    (tags : List (TagPtr τ)) (i : Nat) :
    (removeUnsupportedPropertiesLoop unsupported i tags).1.length = tags.length := by
  induction tags generalizing i with
  | nil => rfl
  | cons p rest ih =>
    cases p <;> simp [removeUnsupportedPropertiesLoop, ih]

end Loops

/-! ## Owning pointers and the ways a call ends -/

section Pointers

variable {τ : Type}

/-- Modelled from the spec: `SCOPED_PTR<Tag>::reset(tag)` (tsmartptr.h is not
among the sources).  The pointer takes ownership of `tag`, "releasing whatever
previously occupied that slot (including releasing to empty if `tag` is
absent)"; "prior occupant is destroyed/freed".  The result is the pointer after
the call and the tags destroyed by the call. -/
def scopedPtrReset (held tag : TagPtr τ) : TagPtr τ × List τ :=
  (tag, held.toList)

/-- Modelled from the spec: the destructor of `SCOPED_PTR<Tag>` (tsmartptr.h is
not among the sources): "all owned slot contents are released".  The result is
the tags destroyed. -/
def scopedPtrDestroy (held : TagPtr τ) : List τ :=
  held.toList

/-- The destruction of a sequence of owning pointers, one after the other: the
tags destroyed, in order. -/
def destroyAll : List (TagPtr τ) → List τ
  | [] => []
  | p :: rest => scopedPtrDestroy p ++ destroyAll rest

/-- A tag object, named by its address: the value of a non-null `Tag *`. -/
abbrev TagObject := Nat

/-- The tags that a sequence of slots holds, in slot order. -/
def occupants (tags : List (TagPtr τ)) : List τ :=
  tags.reduceOption

end Pointers

/-- How a call of a slot accessor ends. -/
inductive Outcome (α : Type) where
  /-- The call returns a result. -/
  | returned (a : α)
  /-- The call stops at a check of its precondition and reports the violation. -/
  | violation
  /-- The call indexes the array outside its bounds, for which C++ defines no
  behaviour. -/
  | undefined
deriving DecidableEq, Repr

/-! ## The union (tagunion.cpp, lines 64-238) -/

/-- The class `TagUnion<COUNT>::TagUnionPrivate`, lines 64-69: the array
`SCOPED_PTR<Tag> tags[COUNT]`, a sequence of exactly `COUNT` owning pointers. -/
structure TagUnionPrivate (τ : Type) (COUNT : Nat) where
  tags : List (TagPtr τ)
  size_eq : tags.length = COUNT

/-- The class `TagUnion<COUNT>`: the private data `d`. -/
structure TagUnion (τ : Type) (COUNT : Nat) where
  d : TagUnionPrivate τ COUNT

namespace TagUnion

variable {τ : Type} {COUNT : Nat}

/-- The constructor `TagUnion()`, lines 71-75: `d(new TagUnionPrivate())`; every
`SCOPED_PTR` of the array is default-constructed, that is null. -/
def new (τ : Type) (COUNT : Nat) : TagUnion τ COUNT :=
  ⟨⟨List.replicate COUNT none, List.length_replicate COUNT none⟩⟩

/-- The method `tag(index)`, lines 89-93: `return d->tags[index].get();`. -/
def tag (u : TagUnion τ COUNT) (index : Nat) : Option (TagPtr τ) :=
  u.d.tags[index]?

/-- The `operator[](index)`, lines 83-87: `return tag(index);`. -/
def index (u : TagUnion τ COUNT) (index : Nat) : Option (TagPtr τ) :=
  u.tag index

/-- The method `set(index, tag)`, lines 95-99: `d->tags[index].reset(tag);`. -/
def set (u : TagUnion τ COUNT) (index : Nat) (tag : TagPtr τ) : Option (TagUnion τ COUNT) :=
  if index < COUNT then
    some ⟨⟨u.d.tags.set index tag, by rw [List.length_set]; exact u.d.size_eq⟩⟩
  else
    none

/-- The method `tag(index)`, lines 89-93, with the way the call ends.  The body
is the single statement `return d->tags[index].get();`: nothing compares `index`
with `COUNT`, so the call returns when the array access is in range and has no
defined behaviour otherwise. -/
def tagOutcome (u : TagUnion τ COUNT) (index : Nat) : Outcome (TagPtr τ) :=
  match u.tag index with
  | some p => .returned p
  | none => .undefined

/-- The `operator[](index)`, lines 83-87, with the way the call ends:
`return tag(index);`. -/
def indexOutcome (u : TagUnion τ COUNT) (index : Nat) : Outcome (TagPtr τ) :=
  u.tagOutcome index

/-- The method `set(index, tag)`, lines 95-99, with the way the call ends.  The
body is the single statement `d->tags[index].reset(tag);`: nothing compares
`index` with `COUNT`. -/
def setOutcome (u : TagUnion τ COUNT) (index : Nat) (tag : TagPtr τ) :
    Outcome (TagUnion τ COUNT) :=
  match u.set index tag with
  | some v => .returned v
  | none => .undefined

/-- The method `set(index, tag)`, lines 95-99, with the tags that the call
destroys: `d->tags[index].reset(tag);`. -/
def setReleasing (u : TagUnion τ COUNT) (index : Nat) (tag : TagPtr τ) :
    Option (TagUnion τ COUNT × List τ) :=
  match u.d.tags[index]? with
  | some held =>
    let r := scopedPtrReset held tag
    some (⟨⟨u.d.tags.set index r.1, by rw [List.length_set]; exact u.d.size_eq⟩⟩, r.2)
  | none => none

/-- The destructor `~TagUnion()`, lines 77-81: `delete d;` destroys the private
data, that is the array `tags`, last element first; each pointer destroys the
tag that it holds.  The result is the tags destroyed, in order. -/
def destroy (u : TagUnion τ COUNT) : List τ :=
  destroyAll u.d.tags.reverse

/-- A caller that makes a sequence of calls `set(index, tag)`: the union after
the last call and the tags destroyed by the calls, in order. -/
def setAll (u : TagUnion τ COUNT) :
    List (Nat × TagPtr τ) → Option (TagUnion τ COUNT × List τ)
  | [] => some (u, [])
  | c :: rest =>
    match u.setReleasing c.1 c.2 with
    | none => none
    | some r =>
      match setAll r.1 rest with
      | none => none
      | some r2 => some (r2.1, r.2 ++ r2.2)

/-- Whether slot `j` holds a tag (`d->tags[j]` is not null). -/
def isPresent (u : TagUnion τ COUNT) (j : Nat) : Bool :=
  holdsTag u.d.tags j

/-- Slot `i` holds the tag `t` and every slot before it is absent. -/
def LowestPresent (u : TagUnion τ COUNT) (i : Nat) (t : τ) : Prop :=
  u.tag i = some (some t) ∧ ∀ j, j < i → u.tag j = some none

variable [Tag τ]

/-- The method `properties()`, lines 101-110. -/
def properties (u : TagUnion τ COUNT) : PropertyMap :=
  propertiesLoop u.d.tags

/-- The method `removeUnsupportedProperties(unsupported)`, lines 112-119. -/
def removeUnsupportedProperties (u : TagUnion τ COUNT) (unsupported : StringList) :
    TagUnion τ COUNT × List (Nat × Call) :=
  let r := removeUnsupportedPropertiesLoop unsupported 0 u.d.tags
  (⟨⟨r.1, by rw [removeUnsupportedPropertiesLoop_length]; exact u.d.size_eq⟩⟩, r.2)

/-- The method `title()`, lines 121-125: `stringUnion(title);`. -/
def title (u : TagUnion τ COUNT) : String := stringUnion Tag.title u.d.tags

/-- The method `artist()`, lines 127-131: `stringUnion(artist);`. -/
def artist (u : TagUnion τ COUNT) : String := stringUnion Tag.artist u.d.tags

/-- The method `album()`, lines 133-137: `stringUnion(album);`. -/
def album (u : TagUnion τ COUNT) : String := stringUnion Tag.album u.d.tags

/-- The method `comment()`, lines 139-143: `stringUnion(comment);`. -/
def comment (u : TagUnion τ COUNT) : String := stringUnion Tag.comment u.d.tags

/-- The method `genre()`, lines 145-149: `stringUnion(genre);`. -/
def genre (u : TagUnion τ COUNT) : String := stringUnion Tag.genre u.d.tags

/-- The method `year()`, lines 151-155: `numberUnion(year);`. -/
def year (u : TagUnion τ COUNT) : Nat := numberUnion Tag.year u.d.tags

/-- The method `track()`, lines 157-161: `numberUnion(track);`. -/
def track (u : TagUnion τ COUNT) : Nat := numberUnion Tag.track u.d.tags

/-- The method `trackTotal()`, lines 163-167: `numberUnion(trackTotal);`. -/
def trackTotal (u : TagUnion τ COUNT) : Nat := numberUnion Tag.trackTotal u.d.tags

/-- The method `trackTot()`, lines 169-173: `stringUnion(trackTot);`. -/
def trackTot (u : TagUnion τ COUNT) : String := stringUnion Tag.trackTot u.d.tags

/-- The body `setUnion(method, value)` of a broadcasting setter, run on the
slots of `u` from slot 0. -/
def broadcast (u : TagUnion τ COUNT) (call : Call) : TagUnion τ COUNT × List (Nat × Call) :=
  let r := setUnion call 0 u.d.tags
  (⟨⟨r.1, by rw [setUnion_length]; exact u.d.size_eq⟩⟩, r.2)

/-- The method `setTitle(s)`, lines 175-179: `setUnion(Title, s);`. -/
def setTitle (u : TagUnion τ COUNT) (s : String) : TagUnion τ COUNT × List (Nat × Call) :=
  u.broadcast (.setTitle s)

/-- The method `setArtist(s)`, lines 181-185: `setUnion(Artist, s);`. -/
def setArtist (u : TagUnion τ COUNT) (s : String) : TagUnion τ COUNT × List (Nat × Call) :=
  u.broadcast (.setArtist s)

/-- The method `pictures()`, lines 187-191: `pictureMapUnion(pictures);`. -/
def pictures (u : TagUnion τ COUNT) : PictureMap := pictureMapUnion Tag.pictures u.d.tags

/-- The method `setAlbum(s)`, lines 193-197: `setUnion(Album, s);`. -/
def setAlbum (u : TagUnion τ COUNT) (s : String) : TagUnion τ COUNT × List (Nat × Call) :=
  u.broadcast (.setAlbum s)

/-- The method `setComment(s)`, lines 199-203: `setUnion(Comment, s);`. -/
def setComment (u : TagUnion τ COUNT) (s : String) : TagUnion τ COUNT × List (Nat × Call) :=
  u.broadcast (.setComment s)

/-- The method `setGenre(s)`, lines 205-209: `setUnion(Genre, s);`. -/
def setGenre (u : TagUnion τ COUNT) (s : String) : TagUnion τ COUNT × List (Nat × Call) :=
  u.broadcast (.setGenre s)

/-- The method `setYear(i)`, lines 211-215: `setUnion(Year, i);`. -/
def setYear (u : TagUnion τ COUNT) (i : Nat) : TagUnion τ COUNT × List (Nat × Call) :=
  u.broadcast (.setYear i)

/-- The method `setTrack(i)`, lines 217-221: `setUnion(Track, i);`. -/
def setTrack (u : TagUnion τ COUNT) (i : Nat) : TagUnion τ COUNT × List (Nat × Call) :=
  u.broadcast (.setTrack i)

/-- The method `setPictures(l)`, lines 223-227: `setUnion(Pictures, l);`. -/
def setPictures (u : TagUnion τ COUNT) (l : PictureMap) : TagUnion τ COUNT × List (Nat × Call) :=
  u.broadcast (.setPictures l)

/-- The method `isEmpty()`, lines 229-238. -/
def isEmpty (u : TagUnion τ COUNT) : Bool := isEmptyLoop u.d.tags

/-! ### The reads and writes grouped by kind -/


/-- The six merged text reads. -/
inductive TextField where
  | title | artist | album | comment | genre | trackTot
deriving DecidableEq, Repr

/-- The three merged numeric reads. -/
inductive NumberField where
  | year | track | trackTotal
deriving DecidableEq, Repr

/-- The accessor of a tag that a merged text read calls on the slots. -/
def textOf : TextField → τ → String
  | .title => Tag.title
  | .artist => Tag.artist
  | .album => Tag.album
  | .comment => Tag.comment
  | .genre => Tag.genre
  | .trackTot => Tag.trackTot

/-- The accessor of a tag that a merged numeric read calls on the slots. -/
def numberOf : NumberField → τ → Nat
  | .year => Tag.year
  | .track => Tag.track
  | .trackTotal => Tag.trackTotal

/-- The merged text read of the union for a text field. -/
def text (u : TagUnion τ COUNT) : TextField → String
  | .title => u.title
  | .artist => u.artist
  | .album => u.album
  | .comment => u.comment
  | .genre => u.genre
  | .trackTot => u.trackTot

/-- The merged numeric read of the union for a numeric field. -/
def number (u : TagUnion τ COUNT) : NumberField → Nat
  | .year => u.year
  | .track => u.track
  | .trackTotal => u.trackTotal

end TagUnion

/-! ## A sample tag implementation for the concrete examples -/

/-- A tag that stores each field, with an emptiness flag of its own (the
emptiness check of a tag is virtual and need not follow the fields). -/
structure SampleTag where
  title : String
  artist : String
  album : String
  comment : String
  genre : String
  year : Nat
  track : Nat
  trackTotal : Nat
  trackTot : String
  pictures : PictureMap
  properties : PropertyMap
  empty : Bool
deriving DecidableEq, Repr

instance : Tag SampleTag where
  title t := t.title
  artist t := t.artist
  album t := t.album
  comment t := t.comment
  genre t := t.genre
  year t := t.year
  track t := t.track
  trackTotal t := t.trackTotal
  trackTot t := t.trackTot
  pictures t := t.pictures
  properties t := t.properties
  isEmpty t := t.empty
  setTitle t s := { t with title := s }
  setArtist t s := { t with artist := s }
  setAlbum t s := { t with album := s }
  setComment t s := { t with comment := s }
  setGenre t s := { t with genre := s }
  setYear t i := { t with year := i }
  setTrack t i := { t with track := i }
  setPictures t l := { t with pictures := l }
  removeUnsupportedProperties t unsupported :=
    { t with properties := t.properties.filter fun kv => !unsupported.contains kv.1 }

/-- A sample tag with the given title, every other field at its default, which
reports itself non-empty exactly when the title is non-empty. -/
def SampleTag.titled (s : String) : SampleTag :=
  ⟨s, "", "", "", "", 0, 0, 0, "", [], [], s.isEmpty⟩

/-- The union of the example with `N = 3`: slot titles `""`, `"Bar"`, `"Baz"`. -/
def exampleBarBaz : TagUnion SampleTag 3 :=
  ⟨⟨[some (SampleTag.titled ""), some (SampleTag.titled "Bar"), some (SampleTag.titled "Baz")],
    rfl⟩⟩

/-- A sample tag with every field at its default, which reports itself empty. -/
def SampleTag.blank : SampleTag :=
  ⟨"", "", "", "", "", 0, 0, 0, "", [], [], true⟩

/-- A union with `N = 3`: slot 0 absent, slot 1 with year 0, slot 2 with year
1999. -/
def exampleYears : TagUnion SampleTag 3 :=
  ⟨⟨[none, some SampleTag.blank, some { SampleTag.blank with year := 1999, empty := false }],
    rfl⟩⟩

/-- A union with `N = 2`: slot 0 without pictures, slot 1 with one front cover. -/
def exampleCover : TagUnion SampleTag 2 :=
  ⟨⟨[some SampleTag.blank,
      some { SampleTag.blank with pictures := [(3, ["cover"])], empty := false }],
    rfl⟩⟩

/-- A union with `N = 2` on which field emptiness and tag emptiness differ:
slot 0 has the title `"Foo"` but reports itself empty, slot 1 has no title and
reports itself non-empty. -/
def exampleDivergent : TagUnion SampleTag 2 :=
  ⟨⟨[some { SampleTag.blank with title := "Foo", properties := [("TITLE", ["Foo"])] },
      some { SampleTag.blank with properties := [("ALBUM", ["Qux"])], empty := false }],
    rfl⟩⟩

/-- The union of the example with slots absent, `T1`, `T2`. -/
def exampleAbsentFirst : TagUnion SampleTag 3 :=
  ⟨⟨[none,
      some { SampleTag.titled "T1" with properties := [("FOO", ["1"]), ("TITLE", ["T1"])] },
      some { SampleTag.titled "T2" with properties := [("FOO", ["2"])] }],
    rfl⟩⟩

/-- A union with `N = 3`: slot titles `""`, `"Bar"` and slot 2 absent. -/
def exampleBarAbsent : TagUnion SampleTag 3 :=
  ⟨⟨[some (SampleTag.titled ""), some (SampleTag.titled "Bar"), none], rfl⟩⟩

/-- A union of pointers with `N = 2`: slot 0 absent, slot 1 holds the tag object
at address 7. -/
def exampleOwned : TagUnion TagObject 2 :=
  ⟨⟨[none, some 7], rfl⟩⟩

/-- A sample tag with the title `"Foo"`, year 0 and one front cover, which
reports itself empty. -/
def SampleTag.fooReportingEmpty : SampleTag :=
  { SampleTag.blank with
    title := "Foo", pictures := [(3, ["cover"])], properties := [("TITLE", ["Foo"])] }

/-- A union with `N = 2`: slot 0 absent, slot 1 with the title `"Foo"`, year 0
and a front cover, whose tag reports itself empty. -/
def exampleFooReportingEmpty : TagUnion SampleTag 2 :=
  ⟨⟨[none, some SampleTag.fooReportingEmpty], rfl⟩⟩

/-- A sample tag with the title `"Foo"`, year 0 and one front cover, which
reports itself non-empty. -/
def SampleTag.foo : SampleTag :=
  { SampleTag.fooReportingEmpty with empty := false }

/-- The union of the example with `N = 2`: slot 0 absent, slot 1 with the title
`"Foo"`, year 0 and a front cover, whose tag reports itself non-empty. -/
def exampleFoo : TagUnion SampleTag 2 :=
  ⟨⟨[none, some SampleTag.foo], rfl⟩⟩

/-- A union with `N = 2`: slot 0 with the title `"Foo"`, whose tag reports itself
empty, and slot 1 absent. -/
def exampleFooThenAbsent : TagUnion SampleTag 2 :=
  ⟨⟨[some SampleTag.fooReportingEmpty, none], rfl⟩⟩

/-! ## Lemmas on the scanning loops -/

section LoopLemmas

variable {τ : Type} {α : Type}

/-- The common shape of the three reading loops: return the first value that
passes the test `present`, else the default value.  Used in proofs only. -/
def firstPresent (present : α → Bool) (dflt : α) (method : τ → α) : List (TagPtr τ) → α
  | [] => dflt
  | p :: rest =>
    let val : α := match p with
      | some t => method t
      | none => dflt
    if present val then val else firstPresent present dflt method rest

theorem stringUnion_eq_firstPresent (method : τ → String) (tags : List (TagPtr τ)) :
    stringUnion method tags = firstPresent (fun s => !s.isEmpty) "" method tags := by
  induction tags with
  | nil => rfl
  | cons p rest ih => simp only [stringUnion, firstPresent, ih]

theorem numberUnion_eq_firstPresent (method : τ → Nat) (tags : List (TagPtr τ)) :
    numberUnion method tags = firstPresent (fun n => decide (n > 0)) 0 method tags := by
  induction tags with
  | nil => rfl
  | cons p rest ih => simp only [numberUnion, firstPresent, ih, decide_eq_true_eq]

theorem pictureMapUnion_eq_firstPresent (method : τ → PictureMap) (tags : List (TagPtr τ)) :
    pictureMapUnion method tags = firstPresent (fun l => !l.isEmpty) [] method tags := by
  induction tags with
  | nil => rfl
  | cons p rest ih => simp only [pictureMapUnion, firstPresent, ih]

/-- The scan returns the value of the first slot whose value passes the test. -/
theorem firstPresent_eq_of_first (present : α → Bool) (dflt : α) (hd : present dflt = false)
    (method : τ → α) (tags : List (TagPtr τ)) (i : Nat) (t : τ)
    (hi : tags[i]? = some (some t)) (hp : present (method t) = true)
    (hlow : ∀ j t', j < i → tags[j]? = some (some t') → present (method t') = false) :
    firstPresent present dflt method tags = method t := by
  induction tags generalizing i with
  | nil => simp at hi
  | cons p rest ih =>
    cases i with
    | zero =>
      simp only [List.getElem?_cons_zero, Option.some.injEq] at hi
      subst hi
      simp [firstPresent, hp]
    | succ k =>
      simp only [List.getElem?_cons_succ] at hi
      have hrest := ih k hi fun j t' hj (hj' : rest[j]? = some (some t')) =>
        hlow (j + 1) t' (Nat.succ_lt_succ hj) (by simpa using hj')
      cases p with
      | none => simp [firstPresent, hd, hrest]
      | some t0 =>
        have h0 := hlow 0 t0 (Nat.succ_pos k) (by simp)
        simp [firstPresent, h0, hrest]

/-- The scan returns the default value when no slot has a value that passes the
test. -/
theorem firstPresent_eq_default (present : α → Bool) (dflt : α) (hd : present dflt = false)
    (method : τ → α) (tags : List (TagPtr τ))
    (hnone : ∀ (i : Nat) (t : τ), tags[i]? = some (some t) → present (method t) = false) :
    firstPresent present dflt method tags = dflt := by
  induction tags with
  | nil => rfl
  | cons p rest ih =>
    have hrest := ih fun i t (hi : rest[i]? = some (some t)) =>
      hnone (i + 1) t (by simpa using hi)
    cases p with
    | none => simp [firstPresent, hd, hrest]
    | some t0 =>
      have h0 := hnone 0 t0 (by simp)
      simp [firstPresent, h0, hrest]

/-- The loop of `properties` returns the mapping of the first slot whose tag is
not empty. -/
theorem propertiesLoop_eq_of_first [Tag τ] (tags : List (TagPtr τ)) (i : Nat) (t : τ)
    (hi : tags[i]? = some (some t)) (hp : Tag.isEmpty t = false)
    (hlow : ∀ j t', j < i → tags[j]? = some (some t') → Tag.isEmpty t' = true) :
    propertiesLoop tags = Tag.properties t := by
  induction tags generalizing i with
  | nil => simp at hi
  | cons p rest ih =>
    cases i with
    | zero =>
      simp only [List.getElem?_cons_zero, Option.some.injEq] at hi
      subst hi
      simp [propertiesLoop, hp]
    | succ k =>
      simp only [List.getElem?_cons_succ] at hi
      have hrest := ih k hi fun j t' hj (hj' : rest[j]? = some (some t')) =>
        hlow (j + 1) t' (Nat.succ_lt_succ hj) (by simpa using hj')
      cases p with
      | none => simp [propertiesLoop, hrest]
      | some t0 =>
        have h0 := hlow 0 t0 (Nat.succ_pos k) (by simp)
        simp [propertiesLoop, h0, hrest]

/-- The loop of `isEmpty` answers whether every present slot holds an empty
tag. -/
theorem isEmptyLoop_eq_true_iff [Tag τ] (tags : List (TagPtr τ)) :
    isEmptyLoop tags = true ↔
      ∀ (i : Nat) (t : τ), tags[i]? = some (some t) → Tag.isEmpty t = true := by
  induction tags with
  | nil => simp [isEmptyLoop]
  | cons p rest ih =>
    constructor
    · intro h i t hi
      cases i with
      | zero =>
        simp only [List.getElem?_cons_zero, Option.some.injEq] at hi
        subst hi
        cases ht : Tag.isEmpty t with
        | true => rfl
        | false => simp [isEmptyLoop, ht] at h
      | succ k =>
        simp only [List.getElem?_cons_succ] at hi
        refine ih.1 ?_ k t hi
        cases p with
        | none => simpa [isEmptyLoop] using h
        | some t0 =>
          cases ht : Tag.isEmpty t0 with
          | true => simpa [isEmptyLoop, ht] using h
          | false => simp [isEmptyLoop, ht] at h
    · intro h
      have hrest := ih.2 fun i t (hi : rest[i]? = some (some t)) =>
        h (i + 1) t (by simpa using hi)
      cases p with
      | none => simpa [isEmptyLoop] using hrest
      | some t0 =>
        have h0 := h 0 t0 (by simp)
        simpa [isEmptyLoop, h0] using hrest

/-- The loop of `properties` returns the empty mapping when the loop of
`isEmpty` answers `true`. -/
theorem propertiesLoop_eq_nil_of_isEmptyLoop [Tag τ] (tags : List (TagPtr τ))
    (h : isEmptyLoop tags = true) : propertiesLoop tags = [] := by
  induction tags with
  | nil => rfl
  | cons p rest ih =>
    cases p with
    | none => exact ih (by simpa [isEmptyLoop] using h)
    | some t0 =>
      cases ht : Tag.isEmpty t0 with
      | true =>
        simp only [propertiesLoop, ht]
        exact ih (by simpa [isEmptyLoop, ht] using h)
      | false => simp [isEmptyLoop, ht] at h

/-- The slots after `setUnion`: the call has been applied to the tag of every
present slot, and absent slots are still absent. -/
theorem setUnion_fst [Tag τ] (call : Call) (tags : List (TagPtr τ)) (j : Nat) :
    (setUnion call j tags).1 = tags.map (Option.map fun t => Tag.invoke t call) := by
  induction tags generalizing j with
  | nil => rfl
  | cons p rest ih =>
    cases p <;> simp [setUnion, ih]

/-- The calls made by `setUnion` started at slot `j`: one call for each present
slot, in increasing slot order. -/
theorem setUnion_snd [Tag τ] (call : Call) (tags : List (TagPtr τ)) (j : Nat) :
    (setUnion call j tags).2 =
      ((List.range tags.length).filter (holdsTag tags)).map fun k => (j + k, call) := by
  induction tags generalizing j with
  | nil => rfl
  | cons p rest ih =>
    have hshift : (fun k => (j + 1 + k, call)) = (fun k => (j + k, call)) ∘ Nat.succ := by
      funext k
      simp only [Function.comp, Prod.mk.injEq, and_true]
      omega
    have hcomp : holdsTag (p :: rest) ∘ Nat.succ = holdsTag rest := by
      funext k
      simp [holdsTag]
    cases p with
    | none =>
      have h0 : holdsTag (none :: rest) 0 = false := by simp [holdsTag]
      simp [setUnion, ih, List.range_succ_eq_map, List.filter_cons, List.filter_map, hshift,
        hcomp, h0]
    | some t =>
      have h0 : holdsTag (some t :: rest) 0 = true := by simp [holdsTag]
      simp [setUnion, ih, List.range_succ_eq_map, List.filter_cons, List.filter_map, hshift,
        hcomp, h0]

/-- The loop of `removeUnsupportedProperties` is the loop `setUnion` for the
call `removeUnsupportedProperties(unsupported)`. -/
theorem removeUnsupportedPropertiesLoop_eq_setUnion [Tag τ] (unsupported : StringList)
    (tags : List (TagPtr τ)) (i : Nat) :
    removeUnsupportedPropertiesLoop unsupported i tags =
      setUnion (Call.removeUnsupportedProperties unsupported) i tags := by
  induction tags generalizing i with
  | nil => rfl
  | cons p rest ih =>
    cases p <;> simp [removeUnsupportedPropertiesLoop, setUnion, ih, Tag.invoke]

/-- A list with a present slot has a lowest present slot. -/
theorem exists_lowest_present (tags : List (TagPtr τ))
    (h : ∃ (i : Nat) (t : τ), tags[i]? = some (some t)) :
    ∃ (i : Nat) (t : τ), tags[i]? = some (some t) ∧ ∀ j, j < i → tags[j]? = some none := by
  induction tags with
  | nil =>
    obtain ⟨i, t, hi⟩ := h
    simp at hi
  | cons p rest ih =>
    cases p with
    | some t0 => exact ⟨0, t0, by simp, fun j hj => absurd hj (Nat.not_lt_zero j)⟩
    | none =>
      obtain ⟨i, t, hi⟩ := h
      cases i with
      | zero => simp at hi
      | succ k =>
        obtain ⟨i0, t0, h0, hlow⟩ := ih ⟨k, t, by simpa using hi⟩
        refine ⟨i0 + 1, t0, by simpa using h0, fun j hj => ?_⟩
        cases j with
        | zero => simp
        | succ m => simpa using hlow m (Nat.lt_of_succ_lt_succ hj)

end LoopLemmas

/-! ## The claims -/

namespace TagUnion

section Slots

variable {τ : Type} {COUNT : Nat}

/-- A slot that holds a pointer has an index below `COUNT`. -/
theorem lt_of_tag_eq_some (u : TagUnion τ COUNT) (i : Nat) (p : TagPtr τ)
    (h : u.tag i = some p) : i < COUNT := by
  rw [← u.d.size_eq]
  exact (List.getElem?_eq_some_iff.1 h).1

/-- No slot of a freshly constructed union holds a tag. -/
theorem new_tags_no_tag (i : Nat) (t : τ) :
    ¬ (new τ COUNT).d.tags[i]? = some (some t) := by
  intro h
  have h2 := (List.getElem?_eq_some_iff.1 h).2
  simp [new] at h2

/-- C6: for every index `i` in `[0, N)` and every tag `t`: after `set(i, t)`,
`tag(i)` returns `t`; after `set(i, absent)`, `tag(i)` returns absent, whatever
the slot held before; and `operator[]` returns the same result as `tag` on every
union and index. -/
theorem set_then_tag (u : TagUnion τ COUNT) (i : Nat) (hi : i < COUNT) :
    (∀ t : τ, ∃ v, u.set i (some t) = some v ∧ v.tag i = some (some t)) ∧
    (∃ v, u.set i none = some v ∧ v.tag i = some none) ∧
    (∀ (v : TagUnion τ COUNT) (k : Nat), v.index k = v.tag k) := by
  have hlen : i < u.d.tags.length := by rw [u.d.size_eq]; exact hi
  have key : ∀ p : TagPtr τ, ∃ v, u.set i p = some v ∧ v.tag i = some p := fun p =>
    ⟨⟨⟨u.d.tags.set i p, by rw [List.length_set]; exact u.d.size_eq⟩⟩,
      by simp only [set, if_pos hi], by simp [tag, hlen]⟩
  exact ⟨fun t => key (some t), key none, fun _ _ => rfl⟩

/-- C6, an example: on the union with titles `""`, `"Bar"`, `"Baz"`, slot 1 can
be replaced by a tag titled `"New"` or emptied, and `tag(1)` returns what was
set. -/
theorem set_then_tag_witness :
    (1 < 3) ∧
    (∃ v, exampleBarBaz.set 1 (some (SampleTag.titled "New")) = some v ∧
      v.tag 1 = some (some (SampleTag.titled "New"))) ∧
    (∃ v, exampleBarBaz.set 1 none = some v ∧ v.tag 1 = some none) ∧
    exampleBarBaz.index 1 = exampleBarBaz.tag 1 :=
  ⟨by decide, (set_then_tag exampleBarBaz 1 (by decide)).1 (SampleTag.titled "New"),
    (set_then_tag exampleBarBaz 1 (by decide)).2.1,
    (set_then_tag exampleBarBaz 1 (by decide)).2.2 exampleBarBaz 1⟩

end Slots

variable {τ : Type} {COUNT : Nat} [Tag τ]

theorem text_eq_stringUnion (f : TextField) (u : TagUnion τ COUNT) :
    u.text f = stringUnion (textOf f) u.d.tags := by
  cases f <;> rfl

theorem number_eq_numberUnion (f : NumberField) (u : TagUnion τ COUNT) :
    u.number f = numberUnion (numberOf f) u.d.tags := by
  cases f <;> rfl

/-- C1: each merged text read (title, artist, album, comment, genre, trackTot)
returns the field value of the lowest-index slot that is present and whose value
for that field is a non-empty string, and returns the empty string when no slot
is present with a non-empty value for that field. -/
theorem text_read_first_nonempty (f : TextField) (u : TagUnion τ COUNT) :
    (∀ i t, i < COUNT → u.tag i = some (some t) → textOf f t ≠ "" →
        (∀ j t', j < i → u.tag j = some (some t') → textOf f t' = "") →
        u.text f = textOf f t) ∧
    ((∀ i t, i < COUNT → u.tag i = some (some t) → textOf f t = "") → u.text f = "") := by
  have hlt : ∀ i t, u.tag i = some (some t) → i < COUNT := fun i t h => by
    rw [← u.d.size_eq]
    exact (List.getElem?_eq_some_iff.1 h).1
  rw [text_eq_stringUnion, stringUnion_eq_firstPresent]
  refine ⟨fun i t _ hi hne hlow => ?_, fun hnone => ?_⟩
  · refine firstPresent_eq_of_first _ _ rfl _ _ i t hi ?_ fun j t' hj hj' => ?_
    · simpa [Bool.not_eq_true, ← Bool.not_eq_true, String.isEmpty_iff] using hne
    · simpa [String.isEmpty_iff] using hlow j t' hj hj'
  · refine firstPresent_eq_default _ _ rfl _ _ fun i t hi => ?_
    simpa [String.isEmpty_iff] using hnone i t (hlt i t hi) hi

/-- C1, the example with `N = 3`: slot titles `""`, `"Bar"`, `"Baz"` give
`title() = "Bar"`, by the theorem at slot 1. -/
theorem text_read_first_nonempty_witness : exampleBarBaz.title = "Bar" :=
  (text_read_first_nonempty .title exampleBarBaz).1 1 (SampleTag.titled "Bar")
    (by decide) rfl (by decide)
    (fun j t' hj hj' => by
      have hj0 : j = 0 := by omega
      subst hj0
      have ht : t' = SampleTag.titled "" := by
        simpa [tag, exampleBarBaz] using hj'.symm
      subst ht
      rfl)

/-- C2: each merged numeric read (year, track, trackTotal) returns the value of
the lowest-index present slot whose value for that field is greater than 0, and
returns 0 when no present slot has a value greater than 0 for that field. -/
theorem number_read_first_positive (f : NumberField) (u : TagUnion τ COUNT) :
    (∀ i t, i < COUNT → u.tag i = some (some t) → numberOf f t > 0 →
        (∀ j t', j < i → u.tag j = some (some t') → ¬ numberOf f t' > 0) →
        u.number f = numberOf f t) ∧
    ((∀ i t, i < COUNT → u.tag i = some (some t) → ¬ numberOf f t > 0) → u.number f = 0) := by
  rw [number_eq_numberUnion, numberUnion_eq_firstPresent]
  refine ⟨fun i t _ hi hpos hlow => ?_, fun hnone => ?_⟩
  · refine firstPresent_eq_of_first _ _ rfl _ _ i t hi ?_ fun j t' hj hj' => ?_
    · simpa using hpos
    · simpa using hlow j t' hj hj'
  · refine firstPresent_eq_default _ _ rfl _ _ fun i t hi => ?_
    simpa using hnone i t (u.lt_of_tag_eq_some i _ hi) hi

/-- C2, an example with `N = 3`: slot 0 absent, slot 1 with year 0, slot 2 with
year 1999 give `year() = 1999`, by the theorem at slot 2. -/
theorem number_read_first_positive_witness : exampleYears.year = 1999 :=
  (number_read_first_positive .year exampleYears).1 2
    { SampleTag.blank with year := 1999, empty := false } (by decide) rfl (by decide)
    (fun j t' hj hj' => by
      have hj1 : j = 0 ∨ j = 1 := by omega
      rcases hj1 with rfl | rfl
      · simp [tag, exampleYears] at hj'
      · have ht : t' = SampleTag.blank := by
          simpa [tag, exampleYears] using hj'.symm
        subst ht
        decide)

/-- C3: `pictures()` returns the picture collection of the lowest-index present
slot whose collection is non-empty, and returns an empty collection when no
present slot has a non-empty picture collection. -/
theorem pictures_read_first_nonempty (u : TagUnion τ COUNT) :
    (∀ i t, i < COUNT → u.tag i = some (some t) → Tag.pictures t ≠ [] →
        (∀ j t', j < i → u.tag j = some (some t') → Tag.pictures t' = []) →
        u.pictures = Tag.pictures t) ∧
    ((∀ i t, i < COUNT → u.tag i = some (some t) → Tag.pictures t = []) →
        u.pictures = []) := by
  unfold pictures
  rw [pictureMapUnion_eq_firstPresent]
  refine ⟨fun i t _ hi hne hlow => ?_, fun hnone => ?_⟩
  · refine firstPresent_eq_of_first _ _ rfl _ _ i t hi ?_ fun j t' hj hj' => ?_
    · simpa using hne
    · simpa using hlow j t' hj hj'
  · refine firstPresent_eq_default _ _ rfl _ _ fun i t hi => ?_
    simpa using hnone i t (u.lt_of_tag_eq_some i _ hi) hi

/-- C3, an example with `N = 2`: slot 0 without pictures and slot 1 with a front
cover give the collection of slot 1, by the theorem at slot 1. -/
theorem pictures_read_first_nonempty_witness : exampleCover.pictures = [(3, ["cover"])] :=
  (pictures_read_first_nonempty exampleCover).1 1
    { SampleTag.blank with pictures := [(3, ["cover"])], empty := false }
    (by decide) rfl (by decide)
    (fun j t' hj hj' => by
      have hj0 : j = 0 := by omega
      subst hj0
      have ht : t' = SampleTag.blank := by
        simpa [tag, exampleCover] using hj'.symm
      subst ht
      rfl)

/-- C4: `properties()` returns the property mapping of the lowest-index slot
that is present and whose own `isEmpty()` is false, and returns an empty mapping
when no slot qualifies; in particular an earlier present slot that has a
non-empty individual field (a non-empty text, a positive number or a non-empty
picture collection) but reports itself empty overall is skipped in favour of the
later slot. -/
theorem properties_first_nonempty_tag (u : TagUnion τ COUNT) :
    (∀ i t, i < COUNT → u.tag i = some (some t) → Tag.isEmpty t = false →
        (∀ j t', j < i → u.tag j = some (some t') → Tag.isEmpty t' = true) →
        u.properties = Tag.properties t) ∧
    ((∀ i t, i < COUNT → u.tag i = some (some t) → Tag.isEmpty t = true) →
        u.properties = []) ∧
    (∀ k s i t, k < i → i < COUNT →
        u.tag k = some (some s) →
        ((∃ f, textOf f s ≠ "") ∨ (∃ f, numberOf f s > 0) ∨ Tag.pictures s ≠ []) →
        Tag.isEmpty s = true →
        u.tag i = some (some t) → Tag.isEmpty t = false →
        (∀ j t', j < i → u.tag j = some (some t') → Tag.isEmpty t' = true) →
        u.properties = Tag.properties t) := by
  refine ⟨fun i t _ hi hne hlow => ?_, fun hnone => ?_,
    fun k s i t _ _ _ _ _ hi hne hlow => ?_⟩
  · exact propertiesLoop_eq_of_first _ i t hi hne hlow
  · refine propertiesLoop_eq_nil_of_isEmptyLoop _ ((isEmptyLoop_eq_true_iff _).2 ?_)
    exact fun i t hi => hnone i t (u.lt_of_tag_eq_some i _ hi) hi
  · exact propertiesLoop_eq_of_first _ i t hi hne hlow

/-- C4, an example with `N = 2`: slot 0 has the title `"Foo"` but reports itself
empty, slot 1 reports itself non-empty; `properties()` is the mapping of slot 1,
by the last part of the theorem. -/
theorem properties_first_nonempty_tag_witness :
    exampleDivergent.title = "Foo" ∧ exampleDivergent.properties = [("ALBUM", ["Qux"])] :=
  ⟨rfl, (properties_first_nonempty_tag exampleDivergent).2.2 0
    { SampleTag.blank with title := "Foo", properties := [("TITLE", ["Foo"])] } 1
    { SampleTag.blank with properties := [("ALBUM", ["Qux"])], empty := false }
    (by decide) (by decide) rfl (Or.inl ⟨.title, by decide⟩) rfl rfl rfl
    (fun j t' hj hj' => by
      have hj0 : j = 0 := by omega
      subst hj0
      have ht : t' = { SampleTag.blank with title := "Foo", properties := [("TITLE", ["Foo"])] } := by
        simpa [tag, exampleDivergent] using hj'.symm
      subst ht
      rfl)⟩

/-- C5: `isEmpty()` returns true if and only if there is no slot index `i` in
`[0, N)` whose slot is present and whose tag's own `isEmpty()` is false. -/
theorem isEmpty_iff_no_nonempty_slot (u : TagUnion τ COUNT) :
    u.isEmpty = true ↔
      ¬ ∃ i t, i < COUNT ∧ u.tag i = some (some t) ∧ Tag.isEmpty t = false := by
  unfold isEmpty
  rw [isEmptyLoop_eq_true_iff]
  constructor
  · rintro h ⟨i, t, _, hi, ht⟩
    rw [h i t hi] at ht
    exact Bool.noConfusion ht
  · intro h i t hi
    cases ht : Tag.isEmpty t with
    | true => rfl
    | false => exact absurd ⟨i, t, u.lt_of_tag_eq_some i _ hi, hi, ht⟩ h

/-- C7: a freshly constructed union of any `N` has all `N` slots absent:
`tag(i)` returns absent for every `i` in `[0, N)`, every merged text read
returns the empty string, every merged numeric read returns 0, `pictures()` and
`properties()` return empty collections, and `isEmpty()` returns true. -/
theorem new_all_absent (τ : Type) [Tag τ] (COUNT : Nat) :
    (∀ i, i < COUNT → (new τ COUNT).tag i = some none) ∧
    (∀ f : TextField, (new τ COUNT).text f = "") ∧
    (∀ f : NumberField, (new τ COUNT).number f = 0) ∧
    (new τ COUNT).pictures = [] ∧
    (new τ COUNT).properties = [] ∧
    (new τ COUNT).isEmpty = true := by
  have hempty : isEmptyLoop (new τ COUNT).d.tags = true :=
    (isEmptyLoop_eq_true_iff _).2 fun i t hi => absurd hi (new_tags_no_tag i t)
  refine ⟨fun i hi => ?_, fun f => ?_, fun f => ?_, ?_, ?_, hempty⟩
  · simp [tag, new, List.getElem?_replicate, hi]
  · rw [text_eq_stringUnion, stringUnion_eq_firstPresent]
    exact firstPresent_eq_default _ _ rfl _ _ fun i t hi => absurd hi (new_tags_no_tag i t)
  · rw [number_eq_numberUnion, numberUnion_eq_firstPresent]
    exact firstPresent_eq_default _ _ rfl _ _ fun i t hi => absurd hi (new_tags_no_tag i t)
  · unfold pictures
    rw [pictureMapUnion_eq_firstPresent]
    exact firstPresent_eq_default _ _ rfl _ _ fun i t hi => absurd hi (new_tags_no_tag i t)
  · exact propertiesLoop_eq_nil_of_isEmptyLoop _ hempty

/-- C7, an example: the fresh union with `N = 3` has slot 2 absent, an empty
title, year 0 and is empty. -/
theorem new_all_absent_witness :
    (new SampleTag 3).tag 2 = some none ∧ (new SampleTag 3).title = "" ∧
      (new SampleTag 3).year = 0 ∧ (new SampleTag 3).isEmpty = true :=
  ⟨(new_all_absent SampleTag 3).1 2 (by decide), (new_all_absent SampleTag 3).2.1 .title,
    (new_all_absent SampleTag 3).2.2.1 .year, (new_all_absent SampleTag 3).2.2.2.2.2⟩

/-- The slots after a broadcast: the call applied to each tag. -/
theorem broadcast_tag (u : TagUnion τ COUNT) (c : Call) (i : Nat) :
    (u.broadcast c).1.tag i = (u.tag i).map (Option.map fun t => Tag.invoke t c) := by
  simp [broadcast, tag, setUnion_fst, List.getElem?_map]

/-- The calls of a broadcast: one for each present slot, in slot order. -/
theorem broadcast_calls (u : TagUnion τ COUNT) (c : Call) :
    (u.broadcast c).2 = ((List.range COUNT).filter u.isPresent).map fun j => (j, c) := by
  have h := setUnion_snd c u.d.tags 0
  simp only [Nat.zero_add, u.d.size_eq] at h
  exact h

/-- The effect of the loop `setUnion` on a union: the calls made and the slots
after them. -/
theorem broadcast_effect (u : TagUnion τ COUNT) (c : Call) :
    (u.broadcast c).2 = ((List.range COUNT).filter u.isPresent).map (fun j => (j, c)) ∧
    (∀ i t, u.tag i = some (some t) →
        (u.broadcast c).1.tag i = some (some (Tag.invoke t c))) ∧
    (∀ i, i < COUNT → (u.tag i = some none ↔ (u.broadcast c).1.tag i = some none)) := by
  refine ⟨broadcast_calls u c, fun i t hi => ?_, fun i _ => ?_⟩
  · rw [broadcast_tag, hi]
    rfl
  · rw [broadcast_tag]
    cases h : u.tag i with
    | none => simp
    | some p => cases p <;> simp

/-- C8: for each broadcast setter (setTitle, setArtist, setAlbum, setComment,
setGenre, setYear, setTrack, setPictures) and every value `v`: the calls made
are exactly one call of that setter with `v` for every present slot, in slot
order `0..N-1`; the tag of a present slot afterwards is the tag after its own
setter of the same name was called with `v`; and a slot is absent after the call
exactly when it was absent before it. -/
theorem broadcast_setter_effect (u : TagUnion τ COUNT) :
    (∀ s,
      (u.setTitle s).2 =
        ((List.range COUNT).filter u.isPresent).map (fun j => (j, Call.setTitle s)) ∧
      (∀ i t, u.tag i = some (some t) →
        (u.setTitle s).1.tag i = some (some (Tag.setTitle t s))) ∧
      (∀ i, i < COUNT → (u.tag i = some none ↔ (u.setTitle s).1.tag i = some none))) ∧
    (∀ s,
      (u.setArtist s).2 =
        ((List.range COUNT).filter u.isPresent).map (fun j => (j, Call.setArtist s)) ∧
      (∀ i t, u.tag i = some (some t) →
        (u.setArtist s).1.tag i = some (some (Tag.setArtist t s))) ∧
      (∀ i, i < COUNT → (u.tag i = some none ↔ (u.setArtist s).1.tag i = some none))) ∧
    (∀ s,
      (u.setAlbum s).2 =
        ((List.range COUNT).filter u.isPresent).map (fun j => (j, Call.setAlbum s)) ∧
      (∀ i t, u.tag i = some (some t) →
        (u.setAlbum s).1.tag i = some (some (Tag.setAlbum t s))) ∧
      (∀ i, i < COUNT → (u.tag i = some none ↔ (u.setAlbum s).1.tag i = some none))) ∧
    (∀ s,
      (u.setComment s).2 =
        ((List.range COUNT).filter u.isPresent).map (fun j => (j, Call.setComment s)) ∧
      (∀ i t, u.tag i = some (some t) →
        (u.setComment s).1.tag i = some (some (Tag.setComment t s))) ∧
      (∀ i, i < COUNT → (u.tag i = some none ↔ (u.setComment s).1.tag i = some none))) ∧
    (∀ s,
      (u.setGenre s).2 =
        ((List.range COUNT).filter u.isPresent).map (fun j => (j, Call.setGenre s)) ∧
      (∀ i t, u.tag i = some (some t) →
        (u.setGenre s).1.tag i = some (some (Tag.setGenre t s))) ∧
      (∀ i, i < COUNT → (u.tag i = some none ↔ (u.setGenre s).1.tag i = some none))) ∧
    (∀ n,
      (u.setYear n).2 =
        ((List.range COUNT).filter u.isPresent).map (fun j => (j, Call.setYear n)) ∧
      (∀ i t, u.tag i = some (some t) →
        (u.setYear n).1.tag i = some (some (Tag.setYear t n))) ∧
      (∀ i, i < COUNT → (u.tag i = some none ↔ (u.setYear n).1.tag i = some none))) ∧
    (∀ n,
      (u.setTrack n).2 =
        ((List.range COUNT).filter u.isPresent).map (fun j => (j, Call.setTrack n)) ∧
      (∀ i t, u.tag i = some (some t) →
        (u.setTrack n).1.tag i = some (some (Tag.setTrack t n))) ∧
      (∀ i, i < COUNT → (u.tag i = some none ↔ (u.setTrack n).1.tag i = some none))) ∧
    (∀ l,
      (u.setPictures l).2 =
        ((List.range COUNT).filter u.isPresent).map (fun j => (j, Call.setPictures l)) ∧
      (∀ i t, u.tag i = some (some t) →
        (u.setPictures l).1.tag i = some (some (Tag.setPictures t l))) ∧
      (∀ i, i < COUNT → (u.tag i = some none ↔ (u.setPictures l).1.tag i = some none))) :=
  ⟨fun s => broadcast_effect u (.setTitle s), fun s => broadcast_effect u (.setArtist s),
    fun s => broadcast_effect u (.setAlbum s), fun s => broadcast_effect u (.setComment s),
    fun s => broadcast_effect u (.setGenre s), fun n => broadcast_effect u (.setYear n),
    fun n => broadcast_effect u (.setTrack n), fun l => broadcast_effect u (.setPictures l)⟩

/-- C8, an example: `setTitle("X")` on slots absent, `T1`, `T2` calls
`setTitle("X")` on slot 1 and then on slot 2; slot 0 stays absent, slot 1 holds
`T1` with the title `"X"` and its other fields as before, and `setYear(7)`
changes the year of slot 2 and not its title. -/
theorem broadcast_setter_effect_witness :
    (exampleAbsentFirst.setTitle "X").2 = [(1, Call.setTitle "X"), (2, Call.setTitle "X")] ∧
    (exampleAbsentFirst.setTitle "X").1.tag 0 = some none ∧
    (exampleAbsentFirst.setTitle "X").1.tag 1 =
      some (some ⟨"X", "", "", "", "", 0, 0, 0, "", [],
        [("FOO", ["1"]), ("TITLE", ["T1"])], false⟩) ∧
    (exampleAbsentFirst.setYear 7).1.tag 2 =
      some (some ⟨"T2", "", "", "", "", 7, 0, 0, "", [], [("FOO", ["2"])], false⟩) :=
  ⟨((broadcast_setter_effect exampleAbsentFirst).1 "X").1.trans (by decide),
    (((broadcast_setter_effect exampleAbsentFirst).1 "X").2.2 0 (by decide)).1 rfl,
    (((broadcast_setter_effect exampleAbsentFirst).1 "X").2.1 1
      { SampleTag.titled "T1" with properties := [("FOO", ["1"]), ("TITLE", ["T1"])] }
      rfl).trans (by decide),
    (((broadcast_setter_effect exampleAbsentFirst).2.2.2.2.2.1 7).2.1 2
      { SampleTag.titled "T2" with properties := [("FOO", ["2"])] } rfl).trans (by decide)⟩

/-- The read after a broadcast, for a read of the shape of the three reading
loops and a call whose value the tags store. -/
theorem firstPresent_after_broadcast {α : Type} (present : α → Bool) (dflt : α)
    (hd : present dflt = false) (hdv : ∀ v, present v = false → v = dflt)
    (method : τ → α) (c : Call) (v : α) (u : TagUnion τ COUNT)
    (hpresent : ∃ i t, u.tag i = some (some t))
    (hstore : ∀ i t, u.tag i = some (some t) → method (Tag.invoke t c) = v) :
    firstPresent present dflt method (u.broadcast c).1.d.tags = v ∧
      ∃ i t, (u.broadcast c).1.LowestPresent i t ∧ method t = v := by
  obtain ⟨i, t, hi, hlow⟩ := exists_lowest_present u.d.tags hpresent
  have hi' : (u.broadcast c).1.tag i = some (some (Tag.invoke t c)) := by
    rw [broadcast_tag]
    simp [tag, hi]
  have hlow' : ∀ j, j < i → (u.broadcast c).1.tag j = some none := fun j hj => by
    rw [broadcast_tag]
    simp [tag, hlow j hj]
  refine ⟨?_, i, Tag.invoke t c, ⟨hi', hlow'⟩, hstore i t hi⟩
  cases hp : present v with
  | false =>
    rw [hdv v hp]
    refine firstPresent_eq_default present dflt hd method _ fun k t' hk => ?_
    have hk' : (u.broadcast c).1.tag k = some (some t') := hk
    rw [broadcast_tag] at hk'
    cases hu : u.tag k with
    | none => simp [hu] at hk'
    | some q =>
      cases q with
      | none => simp [hu] at hk'
      | some t0 =>
        simp only [hu, Option.map_some', Option.some.injEq] at hk'
        rw [← hk', hstore k t0 hu]
        exact hp
  | true =>
    rw [← hstore i t hi]
    refine firstPresent_eq_of_first present dflt hd method _ i _ hi' ?_ fun j t' hj hj' => ?_
    · rw [hstore i t hi]
      exact hp
    · have hj2 : (u.broadcast c).1.tag j = some (some t') := hj'
      rw [hlow' j hj] at hj2
      cases hj2

/-- C9: for every union with at least one present slot, whose tags store what
their setters are given, and every value `v`: after a broadcast setter
(setTitle, setArtist, setAlbum, setComment, setGenre, setYear, setTrack,
setPictures) is called with `v`, the matching merged read (title, artist, album,
comment, genre, year, track, pictures) returns `v`, which is the value of that
field in the lowest-index present slot. -/
theorem broadcast_then_read (u : TagUnion τ COUNT) (hpresent : ∃ i t, u.tag i = some (some t)) :
    (∀ s, (∀ i t, u.tag i = some (some t) → Tag.title (Tag.setTitle t s) = s) →
      (u.setTitle s).1.title = s ∧
        ∃ i t, (u.setTitle s).1.LowestPresent i t ∧ Tag.title t = s) ∧
    (∀ s, (∀ i t, u.tag i = some (some t) → Tag.artist (Tag.setArtist t s) = s) →
      (u.setArtist s).1.artist = s ∧
        ∃ i t, (u.setArtist s).1.LowestPresent i t ∧ Tag.artist t = s) ∧
    (∀ s, (∀ i t, u.tag i = some (some t) → Tag.album (Tag.setAlbum t s) = s) →
      (u.setAlbum s).1.album = s ∧
        ∃ i t, (u.setAlbum s).1.LowestPresent i t ∧ Tag.album t = s) ∧
    (∀ s, (∀ i t, u.tag i = some (some t) → Tag.comment (Tag.setComment t s) = s) →
      (u.setComment s).1.comment = s ∧
        ∃ i t, (u.setComment s).1.LowestPresent i t ∧ Tag.comment t = s) ∧
    (∀ s, (∀ i t, u.tag i = some (some t) → Tag.genre (Tag.setGenre t s) = s) →
      (u.setGenre s).1.genre = s ∧
        ∃ i t, (u.setGenre s).1.LowestPresent i t ∧ Tag.genre t = s) ∧
    (∀ n, (∀ i t, u.tag i = some (some t) → Tag.year (Tag.setYear t n) = n) →
      (u.setYear n).1.year = n ∧
        ∃ i t, (u.setYear n).1.LowestPresent i t ∧ Tag.year t = n) ∧
    (∀ n, (∀ i t, u.tag i = some (some t) → Tag.track (Tag.setTrack t n) = n) →
      (u.setTrack n).1.track = n ∧
        ∃ i t, (u.setTrack n).1.LowestPresent i t ∧ Tag.track t = n) ∧
    (∀ l, (∀ i t, u.tag i = some (some t) → Tag.pictures (Tag.setPictures t l) = l) →
      (u.setPictures l).1.pictures = l ∧
        ∃ i t, (u.setPictures l).1.LowestPresent i t ∧ Tag.pictures t = l) := by
  have hs : ∀ v : String, (!v.isEmpty) = false → v = "" := fun v hv => by
    simpa [String.isEmpty_iff] using hv
  have hn : ∀ v : Nat, decide (v > 0) = false → v = 0 := fun v hv => by
    simpa using hv
  have hl : ∀ v : PictureMap, (!v.isEmpty) = false → v = [] := fun v hv => by
    simpa using hv
  refine ⟨fun s h => ?_, fun s h => ?_, fun s h => ?_, fun s h => ?_, fun s h => ?_,
    fun n h => ?_, fun n h => ?_, fun l h => ?_⟩
  · have key := firstPresent_after_broadcast _ "" rfl hs Tag.title (.setTitle s) s u hpresent h
    rw [← stringUnion_eq_firstPresent] at key
    exact key
  · have key := firstPresent_after_broadcast _ "" rfl hs Tag.artist (.setArtist s) s u hpresent h
    rw [← stringUnion_eq_firstPresent] at key
    exact key
  · have key := firstPresent_after_broadcast _ "" rfl hs Tag.album (.setAlbum s) s u hpresent h
    rw [← stringUnion_eq_firstPresent] at key
    exact key
  · have key :=
      firstPresent_after_broadcast _ "" rfl hs Tag.comment (.setComment s) s u hpresent h
    rw [← stringUnion_eq_firstPresent] at key
    exact key
  · have key := firstPresent_after_broadcast _ "" rfl hs Tag.genre (.setGenre s) s u hpresent h
    rw [← stringUnion_eq_firstPresent] at key
    exact key
  · have key := firstPresent_after_broadcast _ 0 rfl hn Tag.year (.setYear n) n u hpresent h
    rw [← numberUnion_eq_firstPresent] at key
    exact key
  · have key := firstPresent_after_broadcast _ 0 rfl hn Tag.track (.setTrack n) n u hpresent h
    rw [← numberUnion_eq_firstPresent] at key
    exact key
  · have key :=
      firstPresent_after_broadcast _ [] rfl hl Tag.pictures (.setPictures l) l u hpresent h
    rw [← pictureMapUnion_eq_firstPresent] at key
    exact key

/-- C9, an example: on the union with titles `""`, `"Bar"`, `"Baz"`, whose sample
tags store what they are given, `setTitle("New")` makes `title()` return
`"New"`, and `setYear(0)` makes `year()` return 0. -/
theorem broadcast_then_read_witness :
    (∃ i t, exampleBarBaz.tag i = some (some t)) ∧
    (exampleBarBaz.setTitle "New").1.title = "New" ∧
    (exampleBarBaz.setYear 0).1.year = 0 :=
  have hpresent : ∃ i t, exampleBarBaz.tag i = some (some t) :=
    ⟨0, SampleTag.titled "", rfl⟩
  ⟨hpresent,
    ((broadcast_then_read exampleBarBaz hpresent).1 "New" fun _ _ _ => rfl).1,
    ((broadcast_then_read exampleBarBaz hpresent).2.2.2.2.2.1 0 fun _ _ _ => rfl).1⟩

/-- The method `removeUnsupportedProperties` is the loop `setUnion` for its
call. -/
theorem removeUnsupportedProperties_eq_broadcast (u : TagUnion τ COUNT)
    (unsupported : StringList) :
    u.removeUnsupportedProperties unsupported =
      u.broadcast (Call.removeUnsupportedProperties unsupported) := by
  simp only [removeUnsupportedProperties, broadcast,
    removeUnsupportedPropertiesLoop_eq_setUnion]

/-- C10: `removeUnsupportedProperties(names)` forwards the removal request with
exactly that list to every present slot, once each, in slot order, and to no
absent slot; the tag of a present slot is the tag that received the request, and
a slot is absent after the call exactly when it was absent before it. -/
theorem removeUnsupportedProperties_forwards (u : TagUnion τ COUNT) (names : StringList) :
    (u.removeUnsupportedProperties names).2 =
      ((List.range COUNT).filter u.isPresent).map
        (fun j => (j, Call.removeUnsupportedProperties names)) ∧
    (∀ i t, u.tag i = some (some t) →
        (u.removeUnsupportedProperties names).1.tag i =
          some (some (Tag.removeUnsupportedProperties t names))) ∧
    (∀ i, i < COUNT →
        (u.tag i = some none ↔ (u.removeUnsupportedProperties names).1.tag i = some none)) := by
  rw [removeUnsupportedProperties_eq_broadcast]
  refine ⟨broadcast_calls u _, fun i t hi => ?_, fun i _ => ?_⟩
  · rw [broadcast_tag, hi]
    rfl
  · rw [broadcast_tag]
    cases h : u.tag i with
    | none => simp
    | some p => cases p <;> simp

/-- C10, the example: on slots absent, `T1`, `T2` the call with the list `FOO`
reaches slot 1 and slot 2 only, each once, and slot 0 stays absent. -/
theorem removeUnsupportedProperties_forwards_witness :
    (exampleAbsentFirst.removeUnsupportedProperties ["FOO"]).2 =
      [(1, Call.removeUnsupportedProperties ["FOO"]),
        (2, Call.removeUnsupportedProperties ["FOO"])] ∧
    (exampleAbsentFirst.removeUnsupportedProperties ["FOO"]).1.tag 0 = some none :=
  ⟨(removeUnsupportedProperties_forwards exampleAbsentFirst ["FOO"]).1.trans (by decide),
    ((removeUnsupportedProperties_forwards exampleAbsentFirst ["FOO"]).2.2 0 (by decide)).1 rfl⟩

end TagUnion

/-! ## Lemmas on precedence and on absent slots -/

section PrecedenceLemmas

variable {τ : Type} {α : Type}

/-- The scan is decided by the slots up to a slot whose value passes the test:
two arrays that agree up to that slot give the same result, which is the value
of one of these slots. -/
theorem firstPresent_of_agree (present : α → Bool) (dflt : α) (hd : present dflt = false)
    (method : τ → α) (tags₁ tags₂ : List (TagPtr τ)) (k : Nat) (t : τ)
    (hk : tags₁[k]? = some (some t)) (hp : present (method t) = true)
    (hsame : ∀ j, j ≤ k → tags₁[j]? = tags₂[j]?) :
    firstPresent present dflt method tags₁ = firstPresent present dflt method tags₂ ∧
      ∃ j t', j ≤ k ∧ tags₁[j]? = some (some t') ∧ present (method t') = true ∧
        firstPresent present dflt method tags₁ = method t' := by
  induction tags₁ generalizing tags₂ k with
  | nil => simp at hk
  | cons p rest ih =>
    cases tags₂ with
    | nil =>
      have h0 := hsame 0 (Nat.zero_le k)
      simp at h0
    | cons q rest₂ =>
      have h0 := hsame 0 (Nat.zero_le k)
      simp only [List.getElem?_cons_zero, Option.some.injEq] at h0
      subst h0
      cases p with
      | some t0 =>
        cases h : present (method t0) with
        | true => exact ⟨by simp [firstPresent, h], 0, t0, Nat.zero_le k, by simp, h,
            by simp [firstPresent, h]⟩
        | false =>
          cases k with
          | zero =>
            simp only [List.getElem?_cons_zero, Option.some.injEq] at hk
            subst hk
            rw [h] at hp
            exact Bool.noConfusion hp
          | succ m =>
            simp only [List.getElem?_cons_succ] at hk
            obtain ⟨heq, j, t', hj, hj', hpj, hval⟩ := ih rest₂ m hk fun j hj => by
              simpa using hsame (j + 1) (Nat.succ_le_succ hj)
            exact ⟨by simp [firstPresent, h, heq], j + 1, t', Nat.succ_le_succ hj,
              by simpa using hj', hpj, by simp [firstPresent, h, hval]⟩
      | none =>
        cases k with
        | zero => simp at hk
        | succ m =>
          simp only [List.getElem?_cons_succ] at hk
          obtain ⟨heq, j, t', hj, hj', hpj, hval⟩ := ih rest₂ m hk fun j hj => by
            simpa using hsame (j + 1) (Nat.succ_le_succ hj)
          exact ⟨by simp [firstPresent, hd, heq], j + 1, t', Nat.succ_le_succ hj,
            by simpa using hj', hpj, by simp [firstPresent, hd, hval]⟩

/-- The scan does not change when a slot whose value fails the test is made
absent. -/
theorem firstPresent_set_none (present : α → Bool) (dflt : α) (hd : present dflt = false)
    (method : τ → α) (tags : List (TagPtr τ)) (i : Nat) (t : τ)
    (hi : tags[i]? = some (some t)) (hp : present (method t) = false) :
    firstPresent present dflt method (tags.set i none) =
      firstPresent present dflt method tags := by
  induction tags generalizing i with
  | nil => simp at hi
  | cons p rest ih =>
    cases i with
    | zero =>
      simp only [List.getElem?_cons_zero, Option.some.injEq] at hi
      subst hi
      simp [firstPresent, hd, hp]
    | succ k =>
      simp only [List.getElem?_cons_succ] at hi
      simp only [List.set_cons_succ, firstPresent, ih k hi]

/-- The loop of `isEmpty` does not change when a slot whose tag is empty is made
absent. -/
theorem isEmptyLoop_set_none [Tag τ] (tags : List (TagPtr τ)) (i : Nat) (t : τ)
    (hi : tags[i]? = some (some t)) (he : Tag.isEmpty t = true) :
    isEmptyLoop (tags.set i none) = isEmptyLoop tags := by
  induction tags generalizing i with
  | nil => simp at hi
  | cons p rest ih =>
    cases i with
    | zero =>
      simp only [List.getElem?_cons_zero, Option.some.injEq] at hi
      subst hi
      simp [isEmptyLoop, he]
    | succ k =>
      simp only [List.getElem?_cons_succ] at hi
      cases p <;> simp only [List.set_cons_succ, isEmptyLoop, ih k hi]

/-- The loop of `properties` does not change when a slot whose tag is empty is
made absent. -/
theorem propertiesLoop_set_none [Tag τ] (tags : List (TagPtr τ)) (i : Nat) (t : τ)
    (hi : tags[i]? = some (some t)) (he : Tag.isEmpty t = true) :
    propertiesLoop (tags.set i none) = propertiesLoop tags := by
  induction tags generalizing i with
  | nil => simp at hi
  | cons p rest ih =>
    cases i with
    | zero =>
      simp only [List.getElem?_cons_zero, Option.some.injEq] at hi
      subst hi
      simp [propertiesLoop, he]
    | succ k =>
      simp only [List.getElem?_cons_succ] at hi
      cases p <;> simp only [List.set_cons_succ, propertiesLoop, ih k hi]

/-- When the loop of `isEmpty` answers `false`, there is a lowest slot that is
present and whose tag is not empty. -/
theorem exists_first_nonempty_of_isEmptyLoop [Tag τ] (tags : List (TagPtr τ))
    (h : isEmptyLoop tags = false) :
    ∃ (i : Nat) (t : τ), tags[i]? = some (some t) ∧ Tag.isEmpty t = false ∧
      ∀ (j : Nat) (t' : τ), j < i → tags[j]? = some (some t') → Tag.isEmpty t' = true := by
  induction tags with
  | nil => simp [isEmptyLoop] at h
  | cons p rest ih =>
    cases p with
    | none =>
      obtain ⟨i, t, hi, ht, hlow⟩ := ih (by simpa [isEmptyLoop] using h)
      refine ⟨i + 1, t, by simpa using hi, ht, fun j t' hj hj' => ?_⟩
      cases j with
      | zero => simp at hj'
      | succ m => exact hlow m t' (Nat.lt_of_succ_lt_succ hj) (by simpa using hj')
    | some t0 =>
      cases h0 : Tag.isEmpty t0 with
      | false => exact ⟨0, t0, by simp, h0, fun j _ hj => absurd hj (Nat.not_lt_zero j)⟩
      | true =>
        obtain ⟨i, t, hi, ht, hlow⟩ := ih (by simpa [isEmptyLoop, h0] using h)
        refine ⟨i + 1, t, by simpa using hi, ht, fun j t' hj hj' => ?_⟩
        cases j with
        | zero =>
          simp only [List.getElem?_cons_zero, Option.some.injEq] at hj'
          subst hj'
          exact h0
        | succ m => exact hlow m t' (Nat.lt_of_succ_lt_succ hj) (by simpa using hj')

end PrecedenceLemmas

/-! ## Lemmas on ownership -/

section OwnershipLemmas

variable {τ : Type}

theorem occupants_cons (p : TagPtr τ) (rest : List (TagPtr τ)) :
    occupants (p :: rest) = p.toList ++ occupants rest := by
  cases p <;> simp [occupants]

/-- Destroying a sequence of owning pointers destroys the tags they hold, each
once, in order. -/
theorem destroyAll_eq_occupants (tags : List (TagPtr τ)) :
    destroyAll tags = occupants tags := by
  induction tags with
  | nil => rfl
  | cons p rest ih => rw [destroyAll, ih, occupants_cons, scopedPtrDestroy]

theorem occupants_append (l₁ l₂ : List (TagPtr τ)) :
    occupants (l₁ ++ l₂) = occupants l₁ ++ occupants l₂ := by
  induction l₁ with
  | nil => rfl
  | cons p rest ih => simp only [List.cons_append, occupants_cons, ih, List.append_assoc]

theorem occupants_reverse_perm (tags : List (TagPtr τ)) :
    (occupants tags.reverse).Perm (occupants tags) := by
  induction tags with
  | nil => exact List.Perm.refl _
  | cons p rest ih =>
    rw [List.reverse_cons, occupants_append, occupants_cons, occupants_cons]
    simp only [occupants, List.reduceOption_nil, List.append_nil]
    exact List.perm_append_comm.trans (List.Perm.append_left _ ih)

/-- One `reset` of a slot: the tags held afterwards together with the tag
destroyed are the tags held before together with the tag handed over. -/
theorem occupants_set_perm (tags : List (TagPtr τ)) (i : Nat) (held tag : TagPtr τ)
    (hi : tags[i]? = some held) :
    (held.toList ++ occupants (tags.set i tag)).Perm (occupants tags ++ tag.toList) := by
  induction tags generalizing i with
  | nil => simp at hi
  | cons p rest ih =>
    cases i with
    | zero =>
      simp only [List.getElem?_cons_zero, Option.some.injEq] at hi
      subst hi
      simp only [List.set_cons_zero, occupants_cons]
      rw [List.append_assoc]
      exact List.Perm.append_left _ List.perm_append_comm
    | succ k =>
      simp only [List.getElem?_cons_succ] at hi
      simp only [List.set_cons_succ, occupants_cons, List.append_assoc]
      refine List.Perm.trans ?_ (List.Perm.append_left _ (ih k hi))
      rw [← List.append_assoc, ← List.append_assoc]
      exact List.Perm.append_right _ List.perm_append_comm

end OwnershipLemmas

namespace TagUnion

section SlotAccess

variable {τ : Type} {COUNT : Nat}

/-- The slots after `set` with its destroyed tags are the slots after `set`. -/
theorem setReleasing_fst (u : TagUnion τ COUNT) (i : Nat) (t : TagPtr τ) :
    (u.setReleasing i t).map Prod.fst = u.set i t := by
  unfold setReleasing set
  by_cases hi : i < COUNT
  · have hlen : i < u.d.tags.length := by rw [u.d.size_eq]; exact hi
    simp [hi, List.getElem?_eq_getElem hlen, scopedPtrReset]
  · have hlen : u.d.tags.length ≤ i := by rw [u.d.size_eq]; exact Nat.le_of_not_lt hi
    simp [hi, List.getElem?_eq_none hlen]

/-- One call of `set` on a slot in range: the result and the tags destroyed. -/
theorem setReleasing_of_tag (u : TagUnion τ COUNT) (i : Nat) (held t : TagPtr τ)
    (hi : u.tag i = some held) :
    ∃ v, u.setReleasing i t = some (v, held.toList) ∧ v.tag i = some t ∧
      v.d.tags = u.d.tags.set i t := by
  have hi' : u.d.tags[i]? = some held := hi
  have hlen : i < u.d.tags.length := (List.getElem?_eq_some_iff.1 hi').1
  refine ⟨⟨⟨u.d.tags.set i t, by rw [List.length_set]; exact u.d.size_eq⟩⟩, ?_, ?_, rfl⟩
  · simp [setReleasing, hi', scopedPtrReset]
  · simp [tag, hlen]

/-- A sequence of `set` calls on slots in range succeeds, and the tags destroyed
by the calls together with the tags still held are the tags held at the start
together with the tags handed over. -/
theorem setAll_perm (calls : List (Nat × TagPtr τ)) (u : TagUnion τ COUNT)
    (hcalls : ∀ c ∈ calls, c.1 < COUNT) :
    ∃ w released, u.setAll calls = some (w, released) ∧
      (released ++ occupants w.d.tags).Perm
        (occupants u.d.tags ++ occupants (calls.map Prod.snd)) := by
  induction calls generalizing u with
  | nil => exact ⟨u, [], rfl, by simp [occupants]⟩
  | cons c rest ih =>
    have hc : c.1 < u.d.tags.length := by
      rw [u.d.size_eq]
      exact hcalls c (List.mem_cons_self _ _)
    have hget : u.tag c.1 = some (u.d.tags[c.1]) := List.getElem?_eq_getElem hc
    obtain ⟨v, hv, _, hvtags⟩ := u.setReleasing_of_tag c.1 _ c.2 hget
    obtain ⟨w, released, hw, hperm⟩ := ih v fun c' hc' => hcalls c' (List.mem_cons_of_mem _ hc')
    refine ⟨w, (u.d.tags[c.1]).toList ++ released, ?_, ?_⟩
    · simp [setAll, hv, hw]
    · have hstep := occupants_set_perm u.d.tags c.1 _ c.2 hget
      rw [← hvtags] at hstep
      simp only [List.map_cons, occupants_cons, List.append_assoc]
      refine (List.Perm.append_left _ hperm).trans ?_
      rw [← List.append_assoc, ← List.append_assoc]
      exact List.Perm.append_right _ hstep

/-- C11, as amended: slot access is not bounds-checked.  For every index
`>= N`, `tag(index)`, `operator[](index)` and `set(index, t)` index the array
without a check and have no defined behaviour; for every index `< N` the three
calls return, `operator[]` with the result of `tag`. -/
theorem slot_access_unchecked (u : TagUnion τ COUNT) (index : Nat) (t : TagPtr τ) :
    (COUNT ≤ index →
      u.tagOutcome index = Outcome.undefined ∧ u.indexOutcome index = Outcome.undefined ∧
        u.setOutcome index t = Outcome.undefined) ∧
    (index < COUNT →
      (∃ p, u.tagOutcome index = Outcome.returned p ∧
        u.indexOutcome index = Outcome.returned p) ∧
      ∃ v, u.setOutcome index t = Outcome.returned v) := by
  constructor
  · intro h
    have hlen : u.d.tags.length ≤ index := by rw [u.d.size_eq]; exact h
    have htag : u.tag index = none := List.getElem?_eq_none hlen
    have hset : u.set index t = none := by simp [set, Nat.not_lt.2 h]
    simp [indexOutcome, tagOutcome, setOutcome, htag, hset]
  · intro h
    have hlen : index < u.d.tags.length := by rw [u.d.size_eq]; exact h
    have htag : u.tag index = some (u.d.tags[index]) := List.getElem?_eq_getElem hlen
    refine ⟨⟨u.d.tags[index], ?_, ?_⟩, ?_⟩
    · simp [tagOutcome, htag]
    · simp [indexOutcome, tagOutcome, htag]
    · simp [setOutcome, set, h]

/-- C11, as amended, an example with `N = 3`: at index 3 the calls have no
defined behaviour, at index 2 they return. -/
theorem slot_access_unchecked_witness :
    (exampleBarBaz.tagOutcome 3 = Outcome.undefined ∧
      exampleBarBaz.indexOutcome 3 = Outcome.undefined ∧
      exampleBarBaz.setOutcome 3 none = Outcome.undefined) ∧
    ((∃ p, exampleBarBaz.tagOutcome 2 = Outcome.returned p ∧
        exampleBarBaz.indexOutcome 2 = Outcome.returned p) ∧
      ∃ v, exampleBarBaz.setOutcome 2 none = Outcome.returned v) :=
  ⟨(slot_access_unchecked exampleBarBaz 3 none).1 (by decide),
    (slot_access_unchecked exampleBarBaz 2 none).2 (by decide)⟩

/-- C11, counterexample: on a union with `N = 3`, none of `tag(3)`,
`operator[](3)` and `set(3, absent)` ends in a checked precondition violation;
`tag(3)` indexes outside the array. -/
theorem slot_access_checked_counterexample :
    3 ≤ 3 ∧ exampleBarBaz.tagOutcome 3 = Outcome.undefined ∧
    exampleBarBaz.tagOutcome 3 ≠ Outcome.violation ∧
    exampleBarBaz.indexOutcome 3 ≠ Outcome.violation ∧
    exampleBarBaz.setOutcome 3 none ≠ Outcome.violation := by
  refine ⟨Nat.le_refl 3, rfl, ?_, ?_, ?_⟩
  · intro h
    cases h
  · intro h
    cases h
  · intro h
    cases h

/-- C13, as amended: the union owns its slot contents.  `set(i, t)` on a slot
that holds a prior occupant `p` destroys `p` exactly once, also when `t` is
absent, and destroys nothing on an absent slot; destroying the union destroys
the tag of every occupied slot, once for each slot, so every remaining occupant
exactly once when no two slots hold the same tag; and after any sequence of
`set` calls on slots in range followed by the destruction of the union, the tags
destroyed are the tags held at the start together with the tags handed over,
each once for each time it was held or handed over, so that no tag leaks and no
tag is destroyed twice when the tags held at the start and the tags handed over
are pairwise distinct objects. -/
theorem union_owns_slot_contents (u : TagUnion τ COUNT) :
    (∀ i p t, u.tag i = some (some p) →
      ∃ v, u.setReleasing i t = some (v, [p]) ∧ u.set i t = some v ∧ v.tag i = some t) ∧
    (∀ i t, u.tag i = some none →
      ∃ v, u.setReleasing i t = some (v, []) ∧ u.set i t = some v ∧ v.tag i = some t) ∧
    u.destroy.Perm (occupants u.d.tags) ∧
    ((occupants u.d.tags).Nodup → u.destroy.Nodup) ∧
    (∀ calls : List (Nat × TagPtr τ), (∀ c ∈ calls, c.1 < COUNT) →
      ∃ w released, u.setAll calls = some (w, released) ∧
        (released ++ w.destroy).Perm (occupants u.d.tags ++ occupants (calls.map Prod.snd)) ∧
        ((occupants u.d.tags ++ occupants (calls.map Prod.snd)).Nodup →
          (released ++ w.destroy).Nodup)) := by
  have hdestroy : ∀ w : TagUnion τ COUNT, w.destroy.Perm (occupants w.d.tags) := fun w => by
    unfold destroy
    rw [destroyAll_eq_occupants]
    exact occupants_reverse_perm _
  have hone : ∀ i (held t : TagPtr τ), u.tag i = some held →
      ∃ v, u.setReleasing i t = some (v, held.toList) ∧ u.set i t = some v ∧
        v.tag i = some t := fun i held t hi => by
    obtain ⟨v, hv, hvt, _⟩ := u.setReleasing_of_tag i held t hi
    refine ⟨v, hv, ?_, hvt⟩
    rw [← setReleasing_fst, hv]
    rfl
  refine ⟨fun i p t hi => hone i (some p) t hi, fun i t hi => hone i none t hi, hdestroy u,
    fun hnodup => (hdestroy u).nodup_iff.2 hnodup, fun calls hcalls => ?_⟩
  obtain ⟨w, released, hw, hperm⟩ := setAll_perm calls u hcalls
  have hall : (released ++ w.destroy).Perm
      (occupants u.d.tags ++ occupants (calls.map Prod.snd)) :=
    (List.Perm.append_left _ (hdestroy w)).trans hperm
  exact ⟨w, released, hw, hall, fun hnodup => hall.nodup_iff.2 hnodup⟩

/-- C13, as amended, an example: on the union that holds the object 7 in slot 1,
emptying slot 1 destroys the object 7 once; and the calls `set(0, 3)`,
`set(1, 5)`, `set(0, absent)`, which hand over distinct objects that the union
does not hold, followed by the destruction of the union, destroy the objects 7,
3 and 5 and none of them twice. -/
theorem union_owns_slot_contents_witness :
    (∃ v, exampleOwned.setReleasing 1 none = some (v, [7]) ∧
      exampleOwned.set 1 none = some v ∧ v.tag 1 = some none) ∧
    (∃ w released,
      exampleOwned.setAll [(0, some 3), (1, some 5), (0, none)] = some (w, released) ∧
      (released ++ w.destroy).Perm [7, 3, 5] ∧ (released ++ w.destroy).Nodup) :=
  ⟨(union_owns_slot_contents exampleOwned).1 1 7 none rfl,
    match (union_owns_slot_contents exampleOwned).2.2.2.2
      [(0, some 3), (1, some 5), (0, none)] (by decide) with
    | ⟨w, released, hw, hperm, hnodup⟩ => ⟨w, released, hw, hperm, hnodup (by decide)⟩⟩

/-- C13, counterexample: on the union that holds the object 7 in slot 1, the
call `set(1, tag(1))` hands the union the object that it already holds; the call
destroys the object 7 and stores it again, and the destruction of the union
destroys it a second time. -/
theorem set_held_tag_double_release_counterexample :
    exampleOwned.tag 1 = some (some 7) ∧
    (exampleOwned.setAll [(1, some 7)]).map (fun r => (r.2, r.1.destroy)) =
      some ([7], [7]) ∧
    ¬ ([7] ++ [7] : List TagObject).Nodup :=
  ⟨rfl, rfl, by decide⟩

/-- C17: `set` changes exactly one slot.  For every `i` in `[0, N)` and every
tag or absent `t`, `set(i, t)` leaves `tag(j)` as it was for every `j` in
`[0, N)` other than `i`, and the number of slots is still `N`. -/
theorem set_changes_one_slot (u : TagUnion τ COUNT) (i : Nat) (hi : i < COUNT)
    (t : TagPtr τ) :
    ∃ v, u.set i t = some v ∧ (∀ j, j < COUNT → j ≠ i → v.tag j = u.tag j) ∧
      v.d.tags.length = COUNT := by
  refine ⟨⟨⟨u.d.tags.set i t, by rw [List.length_set]; exact u.d.size_eq⟩⟩, ?_, ?_, ?_⟩
  · simp only [set, if_pos hi]
  · intro j _ hne
    simp only [tag]
    exact List.getElem?_set_ne (Ne.symm hne)
  · rw [List.length_set]
    exact u.d.size_eq

/-- C17, an example: on the union with titles `""`, `"Bar"`, `"Baz"`, emptying
slot 1 leaves slots 0 and 2 as they were and the union has 3 slots. -/
theorem set_changes_one_slot_witness :
    1 < 3 ∧ ∃ v, exampleBarBaz.set 1 none = some v ∧
      (∀ j, j < 3 → j ≠ 1 → v.tag j = exampleBarBaz.tag j) ∧ v.d.tags.length = 3 :=
  ⟨by decide, set_changes_one_slot exampleBarBaz 1 (by decide) none⟩

/-- A union with two slots is the array of its two slots. -/
theorem tags_eq_pair (u : TagUnion τ 2) (p q : TagPtr τ) (h0 : u.tag 0 = some p)
    (h1 : u.tag 1 = some q) : u.d.tags = [p, q] := by
  have hlen := u.d.size_eq
  have h0' : u.d.tags[0]? = some p := h0
  have h1' : u.d.tags[1]? = some q := h1
  match hts : u.d.tags with
  | [] => simp [hts] at hlen
  | [_] => simp [hts] at hlen
  | a :: b :: c :: _ => simp [hts] at hlen
  | [a, b] =>
    rw [hts] at h0' h1'
    simp only [List.getElem?_cons_zero, List.getElem?_cons_succ, Option.some.injEq] at h0' h1'
    rw [h0', h1']

end SlotAccess

section Reads

variable {τ : Type} {COUNT : Nat} [Tag τ]

/-- C12, as amended: for `N = 2` with slot 0 absent and slot 1 holding any tag
whose title is `"Foo"`, whose year is 0 and whose picture collection is
non-empty: `title()` returns `"Foo"`, `year()` returns 0, `pictures()` returns
the collection of slot 1, and `isEmpty()` returns what the own `isEmpty()` of
the tag in slot 1 returns, so `false` when that tag reports itself non-empty. -/
theorem example_foo_reads (t : τ) (u : TagUnion τ 2) (h0 : u.tag 0 = some none)
    (h1 : u.tag 1 = some (some t)) (ht : Tag.title t = "Foo") (hy : Tag.year t = 0)
    (hp : Tag.pictures t ≠ []) :
    u.title = "Foo" ∧ u.year = 0 ∧ u.pictures = Tag.pictures t ∧
      u.isEmpty = Tag.isEmpty t ∧ (Tag.isEmpty t = false → u.isEmpty = false) := by
  have htags := u.tags_eq_pair none (some t) h0 h1
  have hempty : u.isEmpty = Tag.isEmpty t := by
    unfold isEmpty
    rw [htags]
    cases he : Tag.isEmpty t <;> simp [isEmptyLoop, he]
  refine ⟨?_, ?_, ?_, hempty, fun he => by rw [hempty, he]⟩
  · unfold title
    rw [htags]
    simp [stringUnion, ht]
    decide
  · unfold year
    rw [htags]
    simp [numberUnion, hy]
  · unfold pictures
    rw [htags]
    simp [pictureMapUnion, hp]

/-- C12, as amended, an example: slot 0 absent and slot 1 with the title
`"Foo"`, year 0 and a front cover, whose tag reports itself non-empty. -/
theorem example_foo_reads_witness :
    exampleFoo.title = "Foo" ∧ exampleFoo.year = 0 ∧
    exampleFoo.pictures = [(3, ["cover"])] ∧ exampleFoo.isEmpty = false :=
  have h := example_foo_reads SampleTag.foo exampleFoo rfl rfl rfl rfl (by decide)
  ⟨h.1, h.2.1, h.2.2.1, h.2.2.2.2 rfl⟩

/-- C12, counterexample: with slot 0 absent and slot 1 holding a tag whose title
is `"Foo"`, whose year is 0 and whose picture collection is non-empty, but which
reports itself empty, `isEmpty()` of the union returns true. -/
theorem example_foo_isEmpty_counterexample :
    exampleFooReportingEmpty.tag 0 = some none ∧
    exampleFooReportingEmpty.tag 1 = some (some SampleTag.fooReportingEmpty) ∧
    Tag.title SampleTag.fooReportingEmpty = "Foo" ∧
    Tag.year SampleTag.fooReportingEmpty = 0 ∧
    Tag.pictures SampleTag.fooReportingEmpty ≠ [] ∧
    exampleFooReportingEmpty.isEmpty = true :=
  ⟨rfl, rfl, rfl, rfl, by decide, rfl⟩

/-- C14: later slots are fallbacks only.  For two unions of the same `N` that
hold the same contents in slots `0..k`, where slot `k` is present with a
non-empty (text), positive (number) or non-empty (pictures) value for a field,
the merged read of that field returns the same result on both, and the result is
the value of slot `k` or of an earlier slot, whatever the slots after `k` hold. -/
theorem later_slots_are_fallbacks (u v : TagUnion τ COUNT) (k : Nat) (t : τ)
    (hk : u.tag k = some (some t)) (hsame : ∀ j, j ≤ k → u.tag j = v.tag j) :
    (∀ f : TextField, textOf f t ≠ "" →
      u.text f = v.text f ∧
        ∃ j t', j ≤ k ∧ u.tag j = some (some t') ∧ u.text f = textOf f t') ∧
    (∀ f : NumberField, numberOf f t > 0 →
      u.number f = v.number f ∧
        ∃ j t', j ≤ k ∧ u.tag j = some (some t') ∧ u.number f = numberOf f t') ∧
    (Tag.pictures t ≠ [] →
      u.pictures = v.pictures ∧
        ∃ j t', j ≤ k ∧ u.tag j = some (some t') ∧ u.pictures = Tag.pictures t') := by
  refine ⟨fun f hf => ?_, fun f hf => ?_, fun hf => ?_⟩
  · rw [text_eq_stringUnion, text_eq_stringUnion, stringUnion_eq_firstPresent,
      stringUnion_eq_firstPresent]
    obtain ⟨heq, j, t', hj, hj', _, hval⟩ := firstPresent_of_agree
      (fun s : String => !s.isEmpty) "" (by decide) (textOf f) u.d.tags v.d.tags k t hk
      (by simpa [Bool.not_eq_true, ← Bool.not_eq_true, String.isEmpty_iff] using hf) hsame
    exact ⟨heq, j, t', hj, hj', hval⟩
  · rw [number_eq_numberUnion, number_eq_numberUnion, numberUnion_eq_firstPresent,
      numberUnion_eq_firstPresent]
    obtain ⟨heq, j, t', hj, hj', _, hval⟩ := firstPresent_of_agree
      (fun n : Nat => decide (n > 0)) 0 (by decide) (numberOf f) u.d.tags v.d.tags k t hk (by simpa using hf) hsame
    exact ⟨heq, j, t', hj, hj', hval⟩
  · unfold pictures
    rw [pictureMapUnion_eq_firstPresent, pictureMapUnion_eq_firstPresent]
    obtain ⟨heq, j, t', hj, hj', _, hval⟩ := firstPresent_of_agree
      (fun l : PictureMap => !l.isEmpty) [] (by decide) Tag.pictures u.d.tags v.d.tags k t hk (by simpa using hf) hsame
    exact ⟨heq, j, t', hj, hj', hval⟩

/-- C14, an example: the union with titles `""`, `"Bar"` and slot 2 absent
agrees with the union with titles `""`, `"Bar"`, `"Baz"` in slots 0 and 1, where
slot 1 has a non-empty title; both have the title `"Bar"`. -/
theorem later_slots_are_fallbacks_witness :
    exampleBarBaz.title = exampleBarAbsent.title ∧
    ∃ j t', j ≤ 1 ∧ exampleBarBaz.tag j = some (some t') ∧
      exampleBarBaz.title = Tag.title t' :=
  (later_slots_are_fallbacks exampleBarBaz exampleBarAbsent 1 (SampleTag.titled "Bar") rfl
    (fun j hj => by
      have hj1 : j = 0 ∨ j = 1 := by omega
      rcases hj1 with rfl | rfl <;> rfl)).1 .title (by decide)

/-- C15: an absent slot contributes no value.  Replacing slot `i` by absent
leaves the merged read of a field unchanged when the tag of the slot has the
empty string, 0 or the empty collection for that field, and leaves `isEmpty()`
and `properties()` unchanged when the tag of the slot reports `isEmpty()`. -/
theorem absent_slot_is_default (u : TagUnion τ COUNT) (i : Nat) (t : τ)
    (hi : u.tag i = some (some t)) :
    ∃ v, u.set i none = some v ∧ v.tag i = some none ∧
      (∀ f : TextField, textOf f t = "" → v.text f = u.text f) ∧
      (∀ f : NumberField, numberOf f t = 0 → v.number f = u.number f) ∧
      (Tag.pictures t = [] → v.pictures = u.pictures) ∧
      (Tag.isEmpty t = true → v.isEmpty = u.isEmpty ∧ v.properties = u.properties) := by
  have hlt : i < COUNT := u.lt_of_tag_eq_some i _ hi
  have hlen : i < u.d.tags.length := by rw [u.d.size_eq]; exact hlt
  refine ⟨⟨⟨u.d.tags.set i none, by rw [List.length_set]; exact u.d.size_eq⟩⟩, ?_, ?_,
    fun f hf => ?_, fun f hf => ?_, fun hf => ?_, fun he => ⟨?_, ?_⟩⟩
  · simp only [set, if_pos hlt]
  · simp [tag, hlen]
  · rw [text_eq_stringUnion, text_eq_stringUnion, stringUnion_eq_firstPresent,
      stringUnion_eq_firstPresent]
    refine firstPresent_set_none _ _ rfl _ _ i t hi ?_
    show (!(textOf f t).isEmpty) = false
    rw [hf]
    rfl
  · rw [number_eq_numberUnion, number_eq_numberUnion, numberUnion_eq_firstPresent,
      numberUnion_eq_firstPresent]
    exact firstPresent_set_none _ _ rfl _ _ i t hi (by simp [hf])
  · unfold pictures
    rw [pictureMapUnion_eq_firstPresent, pictureMapUnion_eq_firstPresent]
    exact firstPresent_set_none _ _ rfl _ _ i t hi (by simp [hf])
  · exact isEmptyLoop_set_none _ i t hi he
  · exact propertiesLoop_set_none _ i t hi he

/-- C15, an example: on the union with titles `""`, `"Bar"`, `"Baz"`, replacing
slot 0, whose title is empty, by absent leaves `title()` unchanged. -/
theorem absent_slot_is_default_witness :
    ∃ v, exampleBarBaz.set 0 none = some v ∧ v.tag 0 = some none ∧
      v.title = exampleBarBaz.title :=
  match absent_slot_is_default exampleBarBaz 0 (SampleTag.titled "") rfl with
  | ⟨v, hv, h0, htext, _⟩ => ⟨v, hv, h0, htext .title rfl⟩

/-- C16: field-level and tag-level emptiness diverge.  On a union with `N = 2`
whose slot 0 holds a tag with a non-empty title that reports itself empty and
whose slot 1 is absent, `title()` returns that non-empty title while `isEmpty()`
returns true and `properties()` returns the empty mapping; such a union exists,
so a non-empty merged field read does not imply that `isEmpty()` is false. -/
theorem field_and_tag_emptiness_diverge :
    (∀ (σ : Type) [Tag σ] (t : σ) (u : TagUnion σ 2),
      u.tag 0 = some (some t) → u.tag 1 = some none →
      Tag.title t ≠ "" → Tag.isEmpty t = true →
      u.title = Tag.title t ∧ u.title ≠ "" ∧ u.isEmpty = true ∧ u.properties = []) ∧
    (∃ u : TagUnion SampleTag 2, u.title ≠ "" ∧ u.isEmpty = true ∧ u.properties = []) ∧
    ¬ (∀ u : TagUnion SampleTag 2, u.title ≠ "" → u.isEmpty = false) := by
  have hex : exampleFooThenAbsent.title ≠ "" ∧ exampleFooThenAbsent.isEmpty = true ∧
      exampleFooThenAbsent.properties = [] := ⟨by decide, rfl, rfl⟩
  refine ⟨fun σ _ t u h0 h1 ht he => ?_, ⟨exampleFooThenAbsent, hex⟩, fun h => ?_⟩
  · have htags := u.tags_eq_pair (some t) none h0 h1
    have hne : (Tag.title t).isEmpty = false := by
      simpa [Bool.not_eq_true, ← Bool.not_eq_true, String.isEmpty_iff] using ht
    have htitle : u.title = Tag.title t := by
      unfold title
      rw [htags]
      simp [stringUnion, hne]
    refine ⟨htitle, by rw [htitle]; exact ht, ?_, ?_⟩
    · unfold isEmpty
      rw [htags]
      simp [isEmptyLoop, he]
    · unfold properties
      rw [htags]
      simp [propertiesLoop, he]
  · have hfalse := h exampleFooThenAbsent hex.1
    rw [hex.2.1] at hfalse
    exact Bool.noConfusion hfalse

/-- C16, the example: slot 0 holds a tag with the title `"Foo"` that reports
itself empty, slot 1 is absent; `title()` is `"Foo"`, `isEmpty()` is true and
`properties()` is empty although the tag has a property. -/
theorem field_and_tag_emptiness_diverge_witness :
    exampleFooThenAbsent.title = "Foo" ∧ exampleFooThenAbsent.title ≠ "" ∧
    exampleFooThenAbsent.isEmpty = true ∧ exampleFooThenAbsent.properties = [] ∧
    Tag.properties SampleTag.fooReportingEmpty = [("TITLE", ["Foo"])] :=
  have h := field_and_tag_emptiness_diverge.1 SampleTag SampleTag.fooReportingEmpty
    exampleFooThenAbsent rfl rfl (by decide) rfl
  ⟨h.1, h.2.1, h.2.2.1, h.2.2.2, rfl⟩

/-- C18: `isEmpty()` and `properties()` use the same gate.  If `isEmpty()`
returns true then `properties()` returns the empty mapping, and if `isEmpty()`
returns false then `properties()` is the `properties()` of the lowest-index slot
that is present and not empty, the slot that makes `isEmpty()` false. -/
theorem isEmpty_properties_same_gate (u : TagUnion τ COUNT) :
    (u.isEmpty = true → u.properties = []) ∧
    (u.isEmpty = false →
      ∃ i t, i < COUNT ∧ u.tag i = some (some t) ∧ Tag.isEmpty t = false ∧
        (∀ j t', j < i → u.tag j = some (some t') → Tag.isEmpty t' = true) ∧
        u.properties = Tag.properties t) := by
  refine ⟨fun h => propertiesLoop_eq_nil_of_isEmptyLoop _ h, fun h => ?_⟩
  obtain ⟨i, t, hi, ht, hlow⟩ := exists_first_nonempty_of_isEmptyLoop u.d.tags h
  exact ⟨i, t, u.lt_of_tag_eq_some i _ hi, hi, ht, hlow,
    propertiesLoop_eq_of_first _ i t hi ht hlow⟩

/-- C18, examples: the union whose slot 0 reports itself empty and whose slot 1
does not is not empty and has the properties of slot 1; the union whose only tag
reports itself empty is empty and has no properties. -/
theorem isEmpty_properties_same_gate_witness :
    (exampleDivergent.isEmpty = false ∧
      ∃ i t, i < 2 ∧ exampleDivergent.tag i = some (some t) ∧ Tag.isEmpty t = false ∧
        (∀ j t', j < i → exampleDivergent.tag j = some (some t') → Tag.isEmpty t' = true) ∧
        exampleDivergent.properties = Tag.properties t) ∧
    (exampleFooThenAbsent.isEmpty = true ∧ exampleFooThenAbsent.properties = []) :=
  ⟨⟨rfl, (isEmpty_properties_same_gate exampleDivergent).2 rfl⟩,
    ⟨rfl, (isEmpty_properties_same_gate exampleFooThenAbsent).1 rfl⟩⟩

end Reads

end TagUnion

end TagLib
